import Mathlib

set_option maxRecDepth 100000

/-!
Verification of the YouTube channel scraper core
(`server/youtubeScrape.js`, `src/services/dateNormalization.js`).

Strings are modelled as `List Char` (`Str`).  JavaScript numbers are
modelled as `ℚ` with `none : Option ℚ` standing for `NaN`/absent where a
finiteness check occurs in the code; numeric literals appearing inside
JSON trees are restricted to integers.  JavaScript `Date` values are
modelled as UTC milliseconds (`Int`); the runtime's local time zone is
taken to be UTC, so the local-time `set*` methods used by the code act on
UTC fields.  Character case operations are modelled for ASCII, matching
the engine behaviour on all inputs appearing in this development.
Network effects (`axios` calls) and the engine's `JSON.parse` and
`Date.parse` builtins are passed in as explicit function parameters, so
theorems quantifying over them hold for every behaviour of those
collaborators; concrete witnesses instantiate them with realizable
values.
-/

/-- Strings as character lists. -/
abbrev Str := List Char

/-- Characters treated as whitespace by the JavaScript `\s` class and
`String.prototype.trim` (ASCII subset plus NBSP). -/
def isJsWS (c : Char) : Bool :=
  c = ' ' ∨ c = '\t' ∨ c = '\n' ∨ c = '\r' ∨ c = '\x0b' ∨ c = '\x0c' ∨ c = '\xa0'

/-- Model of `String.prototype.trim`. -/
def jsTrim (s : Str) : Str :=
  ((s.dropWhile isJsWS).reverse.dropWhile isJsWS).reverse

/-- The ASCII upper-to-lower case table. -/
def ucPairs : List (Char × Char) :=
  [('A','a'), ('B','b'), ('C','c'), ('D','d'), ('E','e'), ('F','f'),
   ('G','g'), ('H','h'), ('I','i'), ('J','j'), ('K','k'), ('L','l'),
   ('M','m'), ('N','n'), ('O','o'), ('P','p'), ('Q','q'), ('R','r'),
   ('S','s'), ('T','t'), ('U','u'), ('V','v'), ('W','w'), ('X','x'),
   ('Y','y'), ('Z','z')]

/-- ASCII lower-casing of one character (model of `toLowerCase`,
written as an explicit table so that character-class lemmas are
case-checkable). -/
def jsToLowerChar (c : Char) : Char :=
  match ucPairs.find? (fun p => p.1 = c) with
  | some p => p.2
  | none => c

/-- ASCII lower-casing of a string (model of `toLowerCase`). -/
def lowerStr (s : Str) : Str := s.map jsToLowerChar

/-- Membership of the JavaScript `\w` word-character class. -/
def isWordChar (c : Char) : Bool := c.isAlpha ∨ c.isDigit ∨ c = '_'

/-- Digit-or-comma-or-dot class `[\d,.]` used by `parseCountText`. -/
def isNumChar (c : Char) : Bool := c.isDigit ∨ c = ',' ∨ c = '.'

/-- Value of a digit string (most significant first). -/
def digitsToNat (s : Str) : Nat :=
  s.foldl (fun acc c => acc * 10 + (c.toNat - '0'.toNat)) 0

/-- Index of the first occurrence of `pat` in `l` at or after the current
position, counting from `i`; model of `String.prototype.indexOf(pat)`
when called with `i = 0`. -/
def findSubstrFrom : Str → Str → Nat → Option Nat
  | [], pat, i => if pat = [] then some i else none
  | l@(_ :: rest), pat, i =>
    if pat.isPrefixOf l then some i else findSubstrFrom rest pat (i + 1)

/-- Model of `html.indexOf(marker)`. -/
def findSubstr (l pat : Str) : Option Nat := findSubstrFrom l pat 0

/-- Model of `html.indexOf(c, start)`. -/
def findCharFrom (l : Str) (c : Char) (start : Nat) : Option Nat :=
  ((l.drop start).findIdx? (· = c)).map (· + start)

/-- Whether `pat` occurs in `l` after ASCII lower-casing of both sides;
model of a case-insensitive substring test such as `/like/i.test(k)`. -/
def containsCI (l pat : Str) : Bool := (findSubstr (lowerStr l) (lowerStr pat)).isSome

/-- Decimal rendering of an integer (model of `String(n)` for integral
numbers). -/
def intToStr (n : Int) : Str :=
  if n < 0 then '-' :: Nat.toDigits 10 (-n).toNat else Nat.toDigits 10 n.toNat

/-- Model of `Number(s)` restricted to the productions exercised by the
scraper: optional sign followed by `digits`, `digits.digits`, `digits.`,
or `.digits`; the empty (all-whitespace) string is 0; everything else —
including exponents, hex and `Infinity`, which never occur in the
scraped numerals — is `none` (`NaN`). -/
def jsNumberCore (t : Str) : Option ℚ :=
  let intPart := t.takeWhile Char.isDigit
  let rest := t.dropWhile Char.isDigit
  match rest with
  | [] => if intPart = [] then none else some (digitsToNat intPart : ℚ)
  | '.' :: frac =>
    if frac.all Char.isDigit ∧ (intPart ≠ [] ∨ frac ≠ []) then
      some ((digitsToNat intPart : ℚ) +
        (digitsToNat frac : ℚ) / ((10 : ℚ) ^ frac.length))
    else none
  | _ => none

/-- Model of `Number(s)` on strings (see `jsNumberCore`). -/
def jsNumberFull (s : Str) : Option ℚ :=
  let t := jsTrim s
  match t with
  | [] => some 0
  | '-' :: r => (jsNumberCore r).map (fun q => -q)
  | '+' :: r => jsNumberCore r
  | _ => jsNumberCore t

/-- Model of `Math.round` (round half toward positive infinity). -/
def jsRound (q : ℚ) : Int := ⌊q + 1/2⌋

/-- Model of `parseInt(s, 10)`: skip leading whitespace, optional sign,
then the maximal run of leading decimal digits; `none` is `NaN`. -/
def jsParseIntStr (s : Str) : Option Int :=
  let t := s.dropWhile isJsWS
  match t with
  | '-' :: r =>
    let ds := r.takeWhile Char.isDigit
    if ds = [] then none else some (-(digitsToNat ds : Int))
  | '+' :: r =>
    let ds := r.takeWhile Char.isDigit
    if ds = [] then none else some (digitsToNat ds : Int)
  | _ =>
    let ds := t.takeWhile Char.isDigit
    if ds = [] then none else some (digitsToNat ds : Int)

/-- Model of `s.split(sep)` for a single-character separator. -/
def splitOnChar (sep : Char) : Str → List Str
  | [] => [[]]
  | c :: rest =>
    let r := splitOnChar sep rest
    if c = sep then [] :: r
    else
      match r with
      | h :: t => (c :: h) :: t
      | [] => [[c]]

/-- Leap-year predicate of the proleptic Gregorian calendar. -/
def isLeapYear (y : Int) : Bool :=
  (y % 4 = 0 ∧ y % 100 ≠ 0) ∨ y % 400 = 0

/-- Number of days in a month (1-based month). -/
def daysInMonth (y m : Int) : Int :=
  if m = 2 then (if isLeapYear y then 29 else 28)
  else if m = 4 ∨ m = 6 ∨ m = 9 ∨ m = 11 then 30
  else 31

/-- Day number (days since 1970-01-01) of a civil date with month in
`1..12`; the standard era-based conversion used by calendar libraries,
matching ECMAScript `MakeDay` on in-range month/day fields. -/
def daysFromCivil (y m d : Int) : Int :=
  let y2 := y - (if m ≤ 2 then 1 else 0)
  let era := y2.ediv 400
  let yoe := y2 - era * 400
  let doy := (153 * (m + (if 2 < m then -3 else 9)) + 2).ediv 5 + d - 1
  let doe := yoe * 365 + yoe.ediv 4 - yoe.ediv 100 + doy
  era * 146097 + doe - 719468

/-- Civil date `(year, month, day)` (month in `1..12`) of a day number. -/
def civilFromDays (z : Int) : Int × Int × Int :=
  let z2 := z + 719468
  let era := z2.ediv 146097
  let doe := z2 - era * 146097
  let yoe := (doe - doe.ediv 1460 + doe.ediv 36524 - doe.ediv 146096).ediv 365
  let y := yoe + era * 400
  let doy := doe - (365 * yoe + yoe.ediv 4 - yoe.ediv 100)
  let mp := (5 * doy + 2).ediv 153
  let d := doy - (153 * mp + 2).ediv 5 + 1
  let m := mp + (if mp < 10 then 3 else -9)
  (y + (if m ≤ 2 then 1 else 0), m, d)

/-- Milliseconds per day. -/
def msPerDay : Int := 86400000

/-- Zero-padded 2-digit rendering of a field value. -/
def pad2 (n : Int) : Str :=
  if n < 10 then '0' :: Nat.toDigits 10 n.toNat else Nat.toDigits 10 n.toNat

/-- Zero-padded 3-digit rendering of a field value. -/
def pad3 (n : Int) : Str :=
  if n < 10 then '0' :: '0' :: Nat.toDigits 10 n.toNat
  else if n < 100 then '0' :: Nat.toDigits 10 n.toNat
  else Nat.toDigits 10 n.toNat

/-- Year rendering used by `Date.prototype.toISOString`: four digits for
`0..9999`, otherwise a sign followed by six digits. -/
def isoYearStr (y : Int) : Str :=
  if 0 ≤ y ∧ y ≤ 9999 then
    (if y < 10 then "000".data else if y < 100 then "00".data
     else if y < 1000 then "0".data else []) ++ Nat.toDigits 10 y.toNat
  else
    (if y < 0 then ['-'] else ['+']) ++
    (let a := y.natAbs
     (if a < 10 then "00000".data else if a < 100 then "0000".data
      else if a < 1000 then "000".data else if a < 10000 then "00".data
      else if a < 100000 then "0".data else []) ++ Nat.toDigits 10 a)

/-- Date part `YYYY-MM-DD` of the ISO rendering of a day number. -/
def isoDatePart (day : Int) : Str :=
  let c := civilFromDays day
  isoYearStr c.1 ++ '-' :: pad2 c.2.1 ++ '-' :: pad2 c.2.2

/-- Model of `toISOString` of the UTC midnight of a given day number. -/
def isoStringOfDay (day : Int) : Str := isoDatePart day ++ "T00:00:00.000Z".data

/-- Model of `Date.prototype.toISOString` on a millisecond timestamp. -/
def isoStringOfMs (ms : Int) : Str :=
  let day := ms.ediv msPerDay
  let tod := ms.emod msPerDay
  isoDatePart day ++
    'T' :: pad2 (tod.ediv 3600000) ++
    ':' :: pad2 ((tod.ediv 60000).emod 60) ++
    ':' :: pad2 ((tod.ediv 1000).emod 60) ++
    '.' :: pad3 (tod.emod 1000) ++ ['Z']

/-- ECMAScript `MakeDay`: day number from a year, a 0-based month field
(normalized into the year by floor division) and a day field (added with
overflow, producing the roll-over behaviour of the `Date` setters). -/
def jsMakeDay (y m d : Int) : Int :=
  daysFromCivil (y + m.ediv 12) (m.emod 12 + 1) 1 + (d - 1)

/-- UTC calendar fields `(year, month0, day)` of a timestamp, with
`month0` 0-based as returned by `getMonth`. -/
def jsDateFields (ms : Int) : Int × Int × Int :=
  let c := civilFromDays (ms.ediv msPerDay)
  (c.1, c.2.1 - 1, c.2.2)

/-- Model of `d.setFullYear(y2)` (time zone UTC): the year field is
replaced and the date renormalized via `MakeDay`. -/
def dateSetFullYear (ms y2 : Int) : Int :=
  let f := jsDateFields ms
  jsMakeDay y2 f.2.1 f.2.2 * msPerDay + ms.emod msPerDay

/-- Model of `d.setMonth(m2)` (time zone UTC, `m2` 0-based). -/
def dateSetMonth (ms m2 : Int) : Int :=
  let f := jsDateFields ms
  jsMakeDay f.1 m2 f.2.2 * msPerDay + ms.emod msPerDay

/-- Model of `d.setDate(d2)` (time zone UTC). -/
def dateSetDate (ms d2 : Int) : Int :=
  let f := jsDateFields ms
  jsMakeDay f.1 f.2.1 d2 * msPerDay + ms.emod msPerDay

/-- Strict `YYYY-MM-DD` shape test, model of `/^\d{4}-\d{2}-\d{2}$/`. -/
def isoDateOnlyShape (s : Str) : Bool :=
  match s with
  | [a, b, c, d, '-', e, f, '-', g, h] =>
    a.isDigit ∧ b.isDigit ∧ c.isDigit ∧ d.isDigit ∧
    e.isDigit ∧ f.isDigit ∧ g.isDigit ∧ h.isDigit
  | _ => false

/-- Timestamp of an ISO `YYYY-MM-DD` string (UTC midnight), `none` when
the fields denote no real calendar date; model of the ECMAScript
date-time string parser on such strings. -/
def parseIsoDateOnly (s : Str) : Option Int :=
  match s with
  | [a, b, c, d, '-', e, f, '-', g, h] =>
    if (a.isDigit ∧ b.isDigit ∧ c.isDigit ∧ d.isDigit ∧
        e.isDigit ∧ f.isDigit ∧ g.isDigit ∧ h.isDigit) then
      let y : Int := digitsToNat [a, b, c, d]
      let m : Int := digitsToNat [e, f]
      let dd : Int := digitsToNat [g, h]
      if 1 ≤ m ∧ m ≤ 12 ∧ 1 ≤ dd ∧ dd ≤ daysInMonth y m then
        some (daysFromCivil y m dd * msPerDay)
      else none
    else none
  | _ => none

/-- JSON-like JavaScript values as manipulated by the scraper.  Numeric
leaves are integers (see the file comment). -/
inductive JValue where
  | jnull
  | jbool (b : Bool)
  | jnum (n : Int)
  | jstr (s : Str)
  | jarr (xs : List JValue)
  | jobj (fs : List (Str × JValue))

/-- Truthiness of a JavaScript value. -/
def jTruthyV : JValue → Bool
  | .jnull => false
  | .jbool b => b
  | .jnum n => n ≠ 0
  | .jstr s => s ≠ []
  | .jarr _ => true
  | .jobj _ => true

/-- Truthiness of a possibly-`undefined` value. -/
def jTruthy : Option JValue → Bool
  | none => false
  | some v => jTruthyV v

/-- First binding of a key in an object's field list. -/
def jGetF (fs : List (Str × JValue)) (k : Str) : Option JValue :=
  (fs.find? (fun f => f.1 = k)).map (·.2)

/-- Model of property access `v[k]`; `none` is `undefined`. -/
def jGet (v : JValue) (k : Str) : Option JValue :=
  match v with
  | .jobj fs => jGetF fs k
  | _ => none

/-- Model of optional chaining `o?.[k]`. -/
def jGetO (o : Option JValue) (k : Str) : Option JValue :=
  o.bind (fun v => jGet v k)

/-- Keeps a value only when truthy; models the `x || fallback` pattern
on the left side. -/
def keepTruthy (o : Option JValue) : Option JValue :=
  match o with
  | some v => if jTruthyV v then some v else none
  | none => none

mutual
/-- Model of `String(v)`. -/
def jsToStringV : JValue → Str
  | .jnull => "null".data
  | .jbool b => if b then "true".data else "false".data
  | .jnum n => intToStr n
  | .jstr s => s
  | .jarr xs => jsToStringL xs
  | .jobj _ => "[object Object]".data
/-- Elements of an array joined with commas (`Array.prototype.join`,
with null elements rendered empty). -/
def jsToStringL : List JValue → Str
  | [] => []
  | [v] => jsToStringElem v
  | v :: vs => jsToStringElem v ++ ',' :: jsToStringL vs
/-- Rendering of one array element inside a join. -/
def jsToStringElem : JValue → Str
  | .jnull => []
  | v => jsToStringV v
end

/-- Model of `getText(node)` (`youtubeScrape.js` lines 86–91): a
`simpleText` string if present, else the concatenation of the `text`
members of a `runs` array, trimmed. -/
def getText (node : Option JValue) : Str :=
  match node with
  | none => []
  | some v =>
    if ¬jTruthyV v then []
    else
      match jGet v "simpleText".data with
      | some (.jstr s) => s
      | _ =>
        match jGet v "runs".data with
        | some (.jarr runs) =>
          jsTrim ((runs.map (fun r =>
            match keepTruthy (jGet r "text".data) with
            | some t => jsToStringV t
            | none => [])).flatten)
        | _ => []

mutual
/-- Model of `collectStrings` (lines 93–105): the recursive in-order
collection of the truthy (non-empty) strings of a tree. -/
def collectStrings : JValue → List Str
  | .jstr s => if s = [] then [] else [s]
  | .jarr xs => collectStringsL xs
  | .jobj fs => collectStringsF fs
  | _ => []
/-- Array case of `collectStrings`. -/
def collectStringsL : List JValue → List Str
  | [] => []
  | v :: vs => collectStrings v ++ collectStringsL vs
/-- Object-values case of `collectStrings`. -/
def collectStringsF : List (Str × JValue) → List Str
  | [] => []
  | f :: fs => collectStrings f.2 ++ collectStringsF fs
end

mutual
/-- Model of `collectAllStrings` (lines 107–121): the stack-based
collection, which visits children right to left. -/
def collectAllStrings : JValue → List Str
  | .jstr s => if s = [] then [] else [s]
  | .jarr xs => collectAllStringsL xs
  | .jobj fs => collectAllStringsF fs
  | _ => []
/-- Array case of `collectAllStrings` (last element first). -/
def collectAllStringsL : List JValue → List Str
  | [] => []
  | v :: vs => collectAllStringsL vs ++ collectAllStrings v
/-- Object case of `collectAllStrings` (last value first). -/
def collectAllStringsF : List (Str × JValue) → List Str
  | [] => []
  | f :: fs => collectAllStringsF fs ++ collectAllStrings f.2
end

mutual
/-- Model of `findAllObjectsWithKey` (lines 123–138): the stack-based
search collecting the truthy `key` member of every object, parents
before children, children right to left. -/
def findAllObjectsWithKey (key : Str) : JValue → List JValue
  | .jarr xs => findAllObjectsWithKeyL key xs
  | .jobj fs =>
    (match keepTruthy (jGetF fs key) with
     | some w => [w]
     | none => []) ++ findAllObjectsWithKeyF key fs
  | _ => []
/-- Array case of `findAllObjectsWithKey` (last element first). -/
def findAllObjectsWithKeyL (key : Str) : List JValue → List JValue
  | [] => []
  | v :: vs => findAllObjectsWithKeyL key vs ++ findAllObjectsWithKey key v
/-- Object case of `findAllObjectsWithKey` (last value first). -/
def findAllObjectsWithKeyF (key : Str) : List (Str × JValue) → List JValue
  | [] => []
  | f :: fs => findAllObjectsWithKeyF key fs ++ findAllObjectsWithKey key f.2
end

mutual
/-- Model of `collectByKeyPattern` (lines 308–325): in-order collection,
under every key matched by the pattern, of a string or number value
directly, or of the `getText` rendering of an object value. -/
def collectByKeyPattern (pat : Str → Bool) : JValue → List JValue
  | .jarr xs => collectByKeyPatternL pat xs
  | .jobj fs => collectByKeyPatternF pat fs
  | _ => []
/-- Array case of `collectByKeyPattern`. -/
def collectByKeyPatternL (pat : Str → Bool) : List JValue → List JValue
  | [] => []
  | v :: vs => collectByKeyPattern pat v ++ collectByKeyPatternL pat vs
/-- Object-entries case of `collectByKeyPattern`. -/
def collectByKeyPatternF (pat : Str → Bool) : List (Str × JValue) → List JValue
  | [] => []
  | f :: fs =>
    (if pat f.1 then
       match f.2 with
       | .jstr s => [.jstr s]
       | .jnum n => [.jnum n]
       | .jarr xs =>
         (let t := getText (some (.jarr xs)); if t = [] then [] else [.jstr t])
       | .jobj fs2 =>
         (let t := getText (some (.jobj fs2)); if t = [] then [] else [.jstr t])
       | _ => []
     else []) ++ collectByKeyPattern pat f.2 ++ collectByKeyPatternF pat fs
end

mutual
/-- Model of `collectVideoRenderers` (lines 327–336): in-order
collection of every truthy `videoRenderer` member, parents first. -/
def collectVideoRenderers : JValue → List JValue
  | .jarr xs => collectVideoRenderersL xs
  | .jobj fs =>
    (match keepTruthy (jGetF fs "videoRenderer".data) with
     | some w => [w]
     | none => []) ++ collectVideoRenderersF fs
  | _ => []
/-- Array case of `collectVideoRenderers`. -/
def collectVideoRenderersL : List JValue → List JValue
  | [] => []
  | v :: vs => collectVideoRenderers v ++ collectVideoRenderersL vs
/-- Object-values case of `collectVideoRenderers`. -/
def collectVideoRenderersF : List (Str × JValue) → List JValue
  | [] => []
  | f :: fs => collectVideoRenderers f.2 ++ collectVideoRenderersF fs
end

/-- Characters a handle capture group excludes (`[^/?&#]`). -/
def badHandleChar (c : Char) : Bool := c = '/' ∨ c = '?' ∨ c = '&' ∨ c = '#'

/-- First match of `/youtube\.com\/@([^\/?&#]+)/i` in a string: the
scan tries every start position in order and succeeds where the literal
part matches case-insensitively and the capture is non-empty. -/
def findHandleMatch : Str → Option Str
  | [] => none
  | l@(_ :: rest) =>
    if lowerStr (l.take 13) = "youtube.com/@".data then
      let cap := (l.drop 13).takeWhile (fun c => ¬badHandleChar c)
      if cap = [] then findHandleMatch rest else some cap
    else findHandleMatch rest

/-- Model of `extractHandle` (`youtubeScrape.js` lines 3–11). -/
def extractHandle (channelUrl : Str) : Option Str :=
  if channelUrl = [] then none
  else
    let u := jsTrim channelUrl
    match findHandleMatch u with
    | some h => some h
    | none =>
      match u with
      | '@' :: rest =>
        if rest ≠ [] ∧ rest.all (fun c => ¬badHandleChar c) then some rest
        else none
      | _ => none

/-- One step of the brace scan of `extractJsonAfterMarker`: the state is
`(depth, inString, escape)`. -/
def jsonStep : Int × Bool × Bool → Char → Int × Bool × Bool
  | ⟨depth, inString, escape⟩, ch =>
    if inString then
      if escape then ⟨depth, inString, false⟩
      else if ch = '\\' then ⟨depth, inString, true⟩
      else if ch = '"' then ⟨depth, false, escape⟩
      else ⟨depth, inString, escape⟩
    else
      if ch = '"' then ⟨depth, true, escape⟩
      else if ch = '\x7b' then ⟨depth + 1, inString, escape⟩
      else if ch = '\x7d' then ⟨depth - 1, inString, escape⟩
      else ⟨depth, inString, escape⟩

/-- The scan loop of `extractJsonAfterMarker` (lines 19–36), returning
the number of characters consumed up to and including the closing brace
that returns the depth to zero, or `none` when the input is exhausted
first. -/
def scanFrom : Int × Bool × Bool → Str → Option Nat
  | _, [] => none
  | ⟨depth, inString, escape⟩, ch :: rest =>
    if inString then
      if escape then (scanFrom ⟨depth, inString, false⟩ rest).map (· + 1)
      else if ch = '\\' then (scanFrom ⟨depth, inString, true⟩ rest).map (· + 1)
      else if ch = '"' then (scanFrom ⟨depth, false, escape⟩ rest).map (· + 1)
      else (scanFrom ⟨depth, inString, escape⟩ rest).map (· + 1)
    else
      if ch = '"' then (scanFrom ⟨depth, true, escape⟩ rest).map (· + 1)
      else if ch = '\x7b' then (scanFrom ⟨depth + 1, inString, escape⟩ rest).map (· + 1)
      else if ch = '\x7d' then
        if depth - 1 = 0 then some 1
        else (scanFrom ⟨depth - 1, inString, escape⟩ rest).map (· + 1)
      else (scanFrom ⟨depth, inString, escape⟩ rest).map (· + 1)

/-- Model of `extractJsonAfterMarker` (lines 13–38).  The model is
total: every failure path of the source returns `null`, never throws. -/
def extractJsonAfterMarker (html marker : Str) : Option Str :=
  match findSubstr html marker with
  | none => none
  | some start =>
    match findCharFrom html '\x7b' start with
    | none => none
    | some firstBrace =>
      (scanFrom ⟨0, false, false⟩ (html.drop firstBrace)).map
        (fun len => (html.drop firstBrace).take len)

/-- Model of `extractJsonByMarkers` (lines 40–46). -/
def extractJsonByMarkers (html : Str) (markers : List Str) : Option Str :=
  match markers with
  | [] => none
  | m :: rest =>
    match extractJsonAfterMarker html m with
    | some json => some json
    | none => extractJsonByMarkers html rest

/-- Word-boundary test after a match: true at end of input or before a
non-word character. -/
def noWordAt : Str → Bool
  | [] => true
  | t :: _ => ¬isWordChar t

/-- First match of `/([\d,.]+)([kmb])\b/` in an (already lower-cased,
whitespace-free) string: a maximal `[\d,.]` run, the suffix letter, and
a word boundary after it. -/
def findSuffixMatch : Str → Option (Str × Char)
  | [] => none
  | l@(c :: rest) =>
    if isNumChar c then
      let run := l.takeWhile isNumChar
      match l.dropWhile isNumChar with
      | k :: tail =>
        if (k = 'k' ∨ k = 'm' ∨ k = 'b') ∧ noWordAt tail then some (run, k)
        else findSuffixMatch rest
      | [] => findSuffixMatch rest
    else findSuffixMatch rest

/-- First match of `/([\d,.]+)/`: the first maximal `[\d,.]` run. -/
def findNumRun : Str → Option Str
  | [] => none
  | l@(c :: rest) =>
    if isNumChar c then some (l.takeWhile isNumChar) else findNumRun rest

/-- Multiplier of a `k`/`m`/`b` suffix. -/
def suffixMul (k : Char) : ℚ :=
  if k = 'k' then 1000 else if k = 'm' then 1000000 else 1000000000

/-- Model of `parseCountText` (lines 48–66). -/
def parseCountText (s : Option JValue) : Option ℚ :=
  match s with
  | none => none
  | some .jnull => none
  | some v =>
    let text := jsTrim (jsToStringV v)
    if text = [] then none
    else
      let compact := (lowerStr text).filter (fun c => ¬isJsWS c)
      match findSuffixMatch compact with
      | some (run, k) =>
        match jsNumberFull (run.filter (· ≠ ',')) with
        | none => none
        | some base => some ((jsRound (base * suffixMul k) : Int) : ℚ)
      | none =>
        match findNumRun text with
        | none => none
        | some run => jsNumberFull (run.filter (· ≠ ','))

/-- First match of `/([\d,]+)\s+comments/i`: a maximal `[\d,]` run
followed by at least one whitespace character and the word
`comments`. -/
def findCommentsMatch : Str → Option Str
  | [] => none
  | l@(c :: rest) =>
    if c.isDigit ∨ c = ',' then
      let run := l.takeWhile (fun x => x.isDigit ∨ x = ',')
      let after := l.dropWhile (fun x => x.isDigit ∨ x = ',')
      let ws := after.takeWhile isJsWS
      let after2 := after.dropWhile isJsWS
      if ws ≠ [] ∧ lowerStr (after2.take 8) = "comments".data then some run
      else findCommentsMatch rest
    else findCommentsMatch rest

/-- Model of `parseCommentsNumber` (lines 68–74): the matched numeral,
only when strictly positive. -/
def parseCommentsNumber (s : Option JValue) : Option ℚ :=
  match s with
  | none => none
  | some v =>
    if ¬jTruthyV v then none
    else
      match findCommentsMatch (jsToStringV v) with
      | none => none
      | some run =>
        let n : ℚ := digitsToNat (run.filter (· ≠ ','))
        if 0 < n then some n else none

/-- Model of `normalizeIsoDate` (lines 76–84), parameterized by the
engine's general date parser (its behaviour on non-`YYYY-MM-DD` strings
is engine-defined): the result, when any, is the ISO rendering of the
UTC midnight of the parsed timestamp's day. -/
def normalizeIsoDate (parse : Str → Option Int) (input : Option JValue) : Option Str :=
  match input with
  | some (.jstr s) =>
    if s = [] then none
    else
      let raw := jsTrim s
      if raw = [] then none
      else
        let t := if isoDateOnlyShape raw then parseIsoDateOnly raw else parse raw
        match t with
        | none => none
        | some ms => some (isoStringOfDay (ms.ediv msPerDay))
  | _ => none

/-- Model of `parseDurationTextSeconds` (lines 350–361). -/
def parseDurationTextSeconds (text : Option Str) : Option ℚ :=
  match text with
  | none => none
  | some s =>
    if s = [] then none
    else
      let parts := ((splitOnChar ':' (jsTrim s)).map jsNumberFull).filterMap id
      match parts with
      | [a, b] => some (a * 60 + b)
      | [a, b, c] => some (a * 3600 + b * 60 + c)
      | _ => none

/-- First capture of a `/LITERAL([^"]+)"/`-style pattern: scan start
positions in order; where the literal matches, the capture must be
non-empty and followed by a closing quote. -/
def findKeyCapture (marker : Str) : Str → Option Str
  | [] => none
  | l@(_ :: rest) =>
    if marker.isPrefixOf l then
      let after := l.drop marker.length
      let cap := after.takeWhile (· ≠ '"')
      if cap ≠ [] ∧ after.drop cap.length ≠ [] then some cap
      else findKeyCapture marker rest
    else findKeyCapture marker rest

/-- Model of `extractInnertubeConfig` (lines 195–202). -/
def extractInnertubeConfig (html : Str) : Option Str × Option Str :=
  (findKeyCapture "\"INNERTUBE_API_KEY\":\"".data html,
   findKeyCapture "\"INNERTUBE_CLIENT_VERSION\":\"".data html)

/-- Scan for `/\blikes?\b/i`: some position with a word boundary before
`like` (case-insensitive) and a word boundary after `like` or after
`likes`.  The first parameter records whether the previous character is
a word character. -/
def likeWordScan : Bool → Str → Bool
  | _, [] => false
  | prevWord, l@(c :: rest) =>
    (if ¬prevWord ∧ lowerStr (l.take 4) = "like".data then
       match l.drop 4 with
       | [] => true
       | x :: xs =>
         if ¬isWordChar x then true
         else if x = 's' ∨ x = 'S' then noWordAt xs
         else false
     else false) || likeWordScan (isWordChar c) rest

/-- Model of `/\blikes?\b/i.test(s)`. -/
def likeWordTest (s : Str) : Bool := likeWordScan false s

/-- First element of a token list, or the empty string (model of
`tokens[i+1] || ''`). -/
def headOrEmpty : List Str → Str
  | [] => []
  | u :: _ => u

/-- Inner helper `fromTokenNeighbors` of `extractCommentCount`
(lines 149–159): first positive numeral token whose neighbour (previous
or next trimmed token) mentions `comment`.  The first parameter is the
previous token (`''` at the start). -/
def tokenNeighborsLoop : Str → List Str → Option ℚ
  | _, [] => none
  | prev, t :: rest =>
    match jsNumberFull (t.filter (· ≠ ',')) with
    | some q =>
      if 0 < q ∧
         (containsCI prev "comment".data ∨
          containsCI (headOrEmpty rest) "comment".data) then
        some q
      else tokenNeighborsLoop t rest
    | none => tokenNeighborsLoop t rest

/-- Model of `fromTokenNeighbors` over a string list. -/
def fromTokenNeighbors (strings : List Str) : Option ℚ :=
  tokenNeighborsLoop [] ((strings.map jsTrim).filter (· ≠ []))

/-- Result of comment-count extraction: the count and its source tag. -/
structure CommentResult where
  count : Option ℚ
  source : Option Str

/-- One subtree probe of `extractCommentCount`: `parseCommentsNumber` on
the joined strings, then `fromTokenNeighbors` on the string list. -/
def commentProbe (txtParts : List Str) : Option ℚ :=
  match parseCommentsNumber (some (.jstr (List.intercalate [' '] txtParts))) with
  | some n => some n
  | none => fromTokenNeighbors txtParts

/-- First successful probe over a list of subtrees. -/
def commentProbeList : List JValue → Option ℚ
  | [] => none
  | p :: rest =>
    match commentProbe (collectAllStrings p) with
    | some n => some n
    | none => commentProbeList rest

/-- First string of a list on which `parseCommentsNumber` succeeds. -/
def firstCommentsNumber : List Str → Option ℚ
  | [] => none
  | s :: rest =>
    match parseCommentsNumber (some (.jstr s)) with
    | some n => some n
    | none => firstCommentsNumber rest

/-- Strategy chain of `extractCommentCount` on an object/array
document: engagement panels, then item sections, then all strings,
then token neighbours over all strings. -/
def extractCommentCountFound (v : JValue) : CommentResult :=
  match commentProbeList (findAllObjectsWithKey "engagementPanelSectionListRenderer".data v) with
  | some n => ⟨some n, some "engagementPanels".data⟩
  | none =>
    match commentProbeList (findAllObjectsWithKey "itemSectionRenderer".data v) with
    | some n => ⟨some n, some "itemSectionRenderer".data⟩
    | none =>
      let allStrings := collectAllStrings v
      match firstCommentsNumber allStrings with
      | some n => ⟨some n, some "recursive".data⟩
      | none =>
        match fromTokenNeighbors allStrings with
        | some n => ⟨some n, some "recursive".data⟩
        | none => ⟨none, none⟩

/-- Model of `extractCommentCount` (lines 144–193): the guard of line
145 (falsy or non-object input yields null), then the strategy
chain. -/
def extractCommentCount (ytInitialData : Option JValue) : CommentResult :=
  match ytInitialData with
  | some v =>
    match v with
    | .jarr xs => extractCommentCountFound (.jarr xs)
    | .jobj fs => extractCommentCountFound (.jobj fs)
    | _ => ⟨none, none⟩
  | none => ⟨none, none⟩

/-- Title of a tab entry, `(t.tabRenderer?.title || '')`. -/
def tabTitle (t : JValue) : Str :=
  match keepTruthy (jGetO (jGet t "tabRenderer".data) "title".data) with
  | some v => jsToStringV v
  | none => []

/-- Model of `pickVideosTab` (lines 338–348). -/
def pickVideosTab (ytInitialData : Option JValue) : Option JValue :=
  match jGetO (jGetO (jGetO ytInitialData "contents".data)
      "twoColumnBrowseResultsRenderer".data) "tabs".data with
  | some (.jarr tabs) =>
    match tabs.find? (fun t => lowerStr (tabTitle t) = "videos".data) with
    | some t => some t
    | none =>
      match tabs.find? (fun t => containsCI (tabTitle t) "video".data) with
      | some t => some t
      | none =>
        match tabs.find? (fun t => jTruthy (jGetO (jGet t "tabRenderer".data) "selected".data)) with
        | some t => some t
        | none => keepTruthy tabs.head?
  | _ => none

/-- Channel title and id of `extractChannelMeta` (lines 363–370). -/
structure ChannelMeta where
  channelTitle : JValue
  channelId : JValue

/-- Model of `extractChannelMeta`. -/
def extractChannelMeta (ytInitialData : Option JValue) (handle : Str) : ChannelMeta :=
  let title :=
    match keepTruthy (jGetO (jGetO (jGetO ytInitialData "header".data)
        "c4TabbedHeaderRenderer".data) "title".data) with
    | some v => v
    | none =>
      match keepTruthy (jGetO (jGetO (jGetO ytInitialData "metadata".data)
          "channelMetadataRenderer".data) "title".data) with
      | some v => v
      | none => .jstr handle
  let channelId :=
    match keepTruthy (jGetO (jGetO (jGetO ytInitialData "metadata".data)
        "channelMetadataRenderer".data) "externalId".data) with
    | some v => v
    | none => .jstr handle
  { channelTitle := if jTruthyV title then title else .jstr handle,
    channelId := if jTruthyV channelId then channelId else .jstr handle }

/-- Strips one `^word\s+` occurrence (model of
`.replace(/^word\s+/, '')` on an already lower-cased string). -/
def stripWordWS (word : Str) (s : Str) : Str :=
  if word.isPrefixOf s then
    let after := s.drop word.length
    let ws := after.takeWhile isJsWS
    if ws = [] then s else after.dropWhile isJsWS
  else s

/-- Time units recognized by the relative-date pattern. -/
inductive RelUnit where
  | minute | hour | day | week | month | year

/-- Match of `/^(\d+)\s*(minute|hour|day|week|month|year)s?\s*ago$/`
against an already lower-cased, prefix-stripped string. -/
def relMatch (s : Str) : Option (Nat × RelUnit) :=
  let ds := s.takeWhile Char.isDigit
  if ds = [] then none
  else
    let r1 := (s.dropWhile Char.isDigit).dropWhile isJsWS
    let unitHit : Option (RelUnit × Str) :=
      if "minute".data.isPrefixOf r1 then some (.minute, r1.drop 6)
      else if "hour".data.isPrefixOf r1 then some (.hour, r1.drop 4)
      else if "day".data.isPrefixOf r1 then some (.day, r1.drop 3)
      else if "week".data.isPrefixOf r1 then some (.week, r1.drop 4)
      else if "month".data.isPrefixOf r1 then some (.month, r1.drop 5)
      else if "year".data.isPrefixOf r1 then some (.year, r1.drop 4)
      else none
    match unitHit with
    | none => none
    | some (u, r2) =>
      let r3 := match r2 with
        | 's' :: t => t
        | t => t
      if (r3.dropWhile isJsWS) = "ago".data then some (digitsToNat ds, u)
      else none

/-- Subtraction of `n` units from `now` using the `Date` setter
semantics of the source (local time = UTC; month and year go through
`MakeDay`, hence roll over at short months). -/
def relSubtract (now : Int) (n : Nat) (u : RelUnit) : Int :=
  match u with
  | .minute => now - n * 60000
  | .hour => now - n * 3600000
  | .day => dateSetDate now ((jsDateFields now).2.2 - n)
  | .week => dateSetDate now ((jsDateFields now).2.2 - 7 * n)
  | .month => dateSetMonth now ((jsDateFields now).2.1 - n)
  | .year => dateSetFullYear now ((jsDateFields now).1 - n)

/-- Model of `backwardInductionDate` (`youtubeScrape.js` lines
492–512): strips the `streamed`/`premiered`/`uploaded` prefixes, then
matches the relative pattern and subtracts. -/
def backwardInductionDate (relative : Option Str) (now : Int) : Option Int :=
  match relative with
  | none => none
  | some raw =>
    if raw = [] then none
    else
      let s := stripWordWS "uploaded".data
        (stripWordWS "premiered".data
          (stripWordWS "streamed".data (lowerStr (jsTrim raw))))
      match relMatch s with
      | none => none
      | some (n, u) => some (relSubtract now n u)

/-- Result shape of `normalizeReleaseDate`: the `{ iso, ms }` record
(both set or both null). -/
structure NormalizedDate where
  iso : Option Str
  ms : Option Int

/-- Model of `normalizeReleaseDate` (`dateNormalization.js` lines
1–33), parameterized by the engine's `Date.parse`.  Note: unlike
`backwardInductionDate`, only the `streamed` and `premiered` prefixes
are stripped. -/
def normalizeReleaseDate (parse : Str → Option Int) (raw : Option Str)
    (now : Int) : NormalizedDate :=
  match raw with
  | none => ⟨none, none⟩
  | some r =>
    if r = [] then ⟨none, none⟩
    else
      let original := jsTrim r
      if original = [] then ⟨none, none⟩
      else
        let s := jsTrim (stripWordWS "premiered".data
          (stripWordWS "streamed".data (lowerStr original)))
        match parse s with
        | some parsed => ⟨some (isoStringOfMs parsed), some parsed⟩
        | none =>
          match relMatch s with
          | none => ⟨none, none⟩
          | some (n, u) =>
            let ms := relSubtract now n u
            ⟨some (isoStringOfMs ms), some ms⟩

/-- Month names recognized by the engine's lenient date parser. -/
def monthNames : List Str :=
  ["jan".data, "feb".data, "mar".data, "apr".data, "may".data, "jun".data,
   "jul".data, "aug".data, "sep".data, "oct".data, "nov".data, "dec".data]

/-- Index (0-based) of a month-name prefix of `s`, with the rest. -/
def matchMonthName (s : Str) : Option (Nat × Str) :=
  (List.range 12).findSome? (fun i =>
    match monthNames.get? i with
    | some nm => if nm.isPrefixOf s then some (i, s.drop 3) else none
    | none => none)

/-- Timestamp of a full ISO string
`YYYY-MM-DDTHH:MM:SS.mmmZ` (the exact shape `toISOString` emits). -/
def parseIsoFull (s : Str) : Option Int :=
  match s with
  | [y1, y2, y3, y4, '-', m1, m2, '-', d1, d2, 'T',
     h1, h2, ':', n1, n2, ':', s1, s2, '.', f1, f2, f3, 'Z'] =>
    if ([y1, y2, y3, y4, m1, m2, d1, d2, h1, h2, n1, n2, s1, s2,
         f1, f2, f3].all Char.isDigit) then
      let y : Int := digitsToNat [y1, y2, y3, y4]
      let m : Int := digitsToNat [m1, m2]
      let d : Int := digitsToNat [d1, d2]
      let hh : Int := digitsToNat [h1, h2]
      let mm : Int := digitsToNat [n1, n2]
      let ss : Int := digitsToNat [s1, s2]
      let ff : Int := digitsToNat [f1, f2, f3]
      if 1 ≤ m ∧ m ≤ 12 ∧ 1 ≤ d ∧ d ≤ daysInMonth y m ∧ hh ≤ 23 ∧ mm ≤ 59 ∧ ss ≤ 59 then
        some (daysFromCivil y m d * msPerDay +
          hh * 3600000 + mm * 60000 + ss * 1000 + ff)
      else none
    else none
  | _ => none

/-- Concrete model of the engine's `Date.parse` on the string shapes
this development evaluates it at: ISO `YYYY-MM-DD` dates (UTC
midnight), full `toISOString` output, and the lenient
`monthname day, year` form (local midnight, local time = UTC; V8
accepts it case-insensitively, hence also on lower-cased input).  Every
other string — in particular relative phrases such as `3 years ago`,
with or without a leading `uploaded` — is `NaN` in V8 and `none`
here. -/
def jsDateParseModel (s : Str) : Option Int :=
  if isoDateOnlyShape s then parseIsoDateOnly s
  else
    match parseIsoFull s with
    | some t => some t
    | none =>
      match matchMonthName (lowerStr s) with
      | none => none
      | some (m0, r) =>
        let r1 := r.dropWhile isJsWS
        let ds := r1.takeWhile Char.isDigit
        if ds = [] ∨ 2 < ds.length ∨ r.takeWhile isJsWS = [] then none
        else
          let r2 := r1.dropWhile Char.isDigit
          let r3 := (match r2 with | ',' :: t => t | t => t).dropWhile isJsWS
          let ys := r3.takeWhile Char.isDigit
          if ys.length = 4 ∧ r3.dropWhile Char.isDigit = [] ∧
             1 ≤ digitsToNat ds ∧ digitsToNat ds ≤ 31 then
            some (jsMakeDay (digitsToNat ys) (m0) (digitsToNat ds) * msPerDay)
          else none

/-- JavaScript argument values relevant to `scrapeYouTubeChannelData`'s
`rawMaxVideos` parameter. -/
inductive JSArg where
  | undef
  | jsnull
  | num (n : Int)
  | str (s : Str)

/-- Truthiness of a `JSArg`. -/
def jsArgFalsy : JSArg → Bool
  | .undef => true
  | .jsnull => true
  | .num n => n = 0
  | .str s => s = []

/-- Trailing zeros of a digit string removed (the shortest mantissa of an
exact integral value). -/
def stripTrailingZeros (ds : Str) : Str := (ds.reverse.dropWhile (· = '0')).reverse

/-- Mantissa of the exponential rendering: a single leading digit, then the
remaining significant digits after a decimal point. -/
def expMantissa (ds : Str) : Str :=
  match stripTrailingZeros ds with
  | [] => ['0']
  | d :: rest => d :: (if rest = [] then [] else '.' :: rest)

/-- Model of `String(n)` for an integral number.  ECMAScript
`Number::toString` renders magnitudes below 10^21 as plain decimal digits
and larger magnitudes in exponential notation `d.ddd…e+K` with a single
digit before the point (`String(1e21)` is `'1e+21'`). -/
def jsStringOfInt (n : Int) : Str :=
  if n.natAbs < 10 ^ 21 then intToStr n
  else
    (if n < 0 then ['-'] else []) ++ expMantissa (Nat.toDigits 10 n.natAbs) ++
      'e' :: '+' :: Nat.toDigits 10 ((Nat.toDigits 10 n.natAbs).length - 1)

/-- Model of `parseInt(v, 10)` on a `JSArg`.  `parseInt` coerces its
argument with `ToString` first, so a number is parsed from its rendered
string: magnitudes below 10^21 parse back to themselves, while larger
magnitudes render exponentially and `parseInt` stops at the `.` or `e`,
yielding only the leading mantissa digit (`parseInt(String(1e21), 10)`
is `1`). -/
def jsParseIntArg : JSArg → Option Int
  | .num n => jsParseIntStr (jsStringOfInt n)
  | .str s => jsParseIntStr s
  | .undef => none
  | .jsnull => none

/-- Model of line 518,
`Math.min(100, Math.max(1, parseInt(rawMaxVideos || '10', 10)))`;
`none` is `NaN` (propagated by `Math.min`/`Math.max`). -/
def clampMaxVideos (rawMaxVideos : JSArg) : Option Int :=
  let base := if jsArgFalsy rawMaxVideos then JSArg.str "10".data else rawMaxVideos
  (jsParseIntArg base).map (fun v => min 100 (max 1 v))

/-- External collaborators of the scraper: the HTTP fetcher, the
engine's `JSON.parse`, and the three network-bound helpers
(`fetchTranscriptFromTracks` and the two innertube POST calls), which
the claims treat as effectful black boxes.  Theorems quantify over this
structure, so they hold for every behaviour of the collaborators. -/
structure Oracle where
  fetchHtml : Str → Except Unit Str
  jsonParse : Str → Option JValue
  transcriptFromTracks : JValue → Option Str
  innertubeNext : Str → Str → Str → Option JValue
  innertubePlayer : Str → Str → Str → Option JValue

/-- Result record of `fetchVideoDetails` (lines 480–489). -/
structure VideoDetail where
  description : JValue
  transcript : Option Str
  duration : Option ℚ
  viewCount : Option ℚ
  likeCount : Option ℚ
  commentCount : Option ℚ
  commentCountSource : Option Str
  releaseDate : Option Str

/-- Model of `Number(v)` on a possibly-`undefined` JavaScript value. -/
def jsNumberCoerce : Option JValue → Option ℚ
  | none => none
  | some .jnull => some 0
  | some (.jbool b) => some (if b then 1 else 0)
  | some (.jnum n) => some (n : ℚ)
  | some (.jstr s) => jsNumberFull s
  | some (.jarr xs) => jsNumberFull (jsToStringL xs)
  | some (.jobj _) => none

/-- The watch-page markers tried for the player response blob. -/
def playerMarkers : List Str :=
  ["var ytInitialPlayerResponse = ".data,
   "window[\"ytInitialPlayerResponse\"] = ".data,
   "ytInitialPlayerResponse = ".data]

/-- The markers tried for the `ytInitialData` blob. -/
def initialDataMarkers : List Str :=
  ["var ytInitialData = ".data,
   "window[\"ytInitialData\"] = ".data,
   "ytInitialData = ".data]

/-- Like-count extraction of `fetchVideoDetails` (lines 428–449):
candidate strings from the top-level buttons and the whole document
that pass `/\blikes?\b/i`, plus every value found under a key matching
`/like/i`; each candidate is parsed with `parseCountText` and the
maximum finite non-negative parse is returned. -/
def likeTopLevelButtons (initialData : Option JValue) : JValue :=
  let contentsList := jGetO (jGetO (jGetO (jGetO (jGetO initialData
    "contents".data) "twoColumnWatchNextResults".data) "results".data)
    "results".data) "contents".data
  let primaryInfo :=
    match contentsList with
    | some (.jarr cs) =>
      cs.find? (fun x => jTruthy (jGet x "videoPrimaryInfoRenderer".data))
    | _ => none
  match keepTruthy (jGetO (jGetO (jGetO (jGetO primaryInfo
      "videoPrimaryInfoRenderer".data) "videoActions".data)
      "menuRenderer".data) "topLevelButtons".data) with
  | some v => v
  | none => .jarr []

/-- The candidate values gathered by the like-count extractor (lines
435–445): the top-level-button strings passing `/\blikes?\b/i`, the
document strings passing the same test, and the values found under
keys matching `/like/i`. -/
def likeCandidates (initialData : Option JValue) : List JValue :=
  let likeStrings := collectStrings (likeTopLevelButtons initialData)
  let globalStrings :=
    match initialData with
    | some v => if jTruthyV v then collectStrings v else []
    | none => []
  let likeKeyCandidates :=
    match initialData with
    | some v => if jTruthyV v then collectByKeyPattern (fun k => containsCI k "like".data) v else []
    | none => []
  (likeStrings.filter likeWordTest).map .jstr ++
  (globalStrings.filter likeWordTest).map .jstr ++
  likeKeyCandidates

/-- The finite non-negative parses of the like candidates (lines
446–448). -/
def likeParsedValues (initialData : Option JValue) : List ℚ :=
  (((likeCandidates initialData).map (fun c => parseCountText (some c))).filterMap
    id).filter (0 ≤ ·)

def likeCountFrom (initialData : Option JValue) : Option ℚ :=
  match likeParsedValues initialData with
  | [] => none
  | v :: vs => some (vs.foldl max v)

/-- Candidate gathering following the words of the specification and
of claim C7 — "strings from `like`-related UI containers [all of
them], global strings mentioning `like`, and all values under keys
matching `/like/i`" — for comparison with the code's `likeCandidates`,
which additionally filters the UI-container strings through
`/\blikes?\b/i`. -/
def specLikeCandidates (initialData : Option JValue) : List JValue :=
  let uiStrings := collectStrings (likeTopLevelButtons initialData)
  let globalStrings :=
    match initialData with
    | some v => if jTruthyV v then collectStrings v else []
    | none => []
  let likeKeyCandidates :=
    match initialData with
    | some v => if jTruthyV v then collectByKeyPattern (fun k => containsCI k "like".data) v else []
    | none => []
  uiStrings.map .jstr ++
  (globalStrings.filter (fun s => containsCI s "like".data)).map .jstr ++
  likeKeyCandidates

/-- The like count as described by the specification's words: the
maximum over every successfully parsed gathered candidate, null when
none parses. -/
def specLikeCountFrom (initialData : Option JValue) : Option ℚ :=
  match ((specLikeCandidates initialData).map
      (fun c => parseCountText (some c))).filterMap id with
  | [] => none
  | v :: vs => some (vs.foldl max v)

/-- Model of `fetchCommentCountViaInnertube` (lines 243–277). -/
def fetchCommentCountViaInnertube (o : Oracle) (html : Str) (videoId : Str) :
    CommentResult :=
  let cfg := extractInnertubeConfig html
  match cfg.1, cfg.2 with
  | some apiKey, some clientVersion =>
    match o.innertubeNext apiKey clientVersion videoId with
    | none => ⟨none, none⟩
    | some data =>
      match (extractCommentCount (some data)).count with
      | some n => ⟨some n, some "youtubei".data⟩
      | none =>
        match firstCommentsNumber (collectAllStrings data) with
        | some n => ⟨some n, some "youtubei".data⟩
        | none => ⟨none, none⟩
  | _, _ => ⟨none, none⟩

/-- Model of `fetchPlayerDataViaInnertube` (lines 279–306). -/
def fetchPlayerDataViaInnertube (o : Oracle) (html : Str) (videoId : Str) :
    Option JValue :=
  let cfg := extractInnertubeConfig html
  match cfg.1, cfg.2 with
  | some apiKey, some clientVersion =>
    keepTruthy (o.innertubePlayer apiKey clientVersion videoId)
  | _, _ => none

/-- View-count stage of `fetchVideoDetails` (lines 419–426): the
player response's structured field, with a fallback scan of the
initial-data strings for a numeral-bearing `view` label. -/
def detailViewCount (details initialData : Option JValue) : Option ℚ :=
  let viewCount0 := parseCountText (jGetO details "viewCount".data)
  if viewCount0 = none ∧ jTruthy initialData then
    let allStrings :=
      match initialData with
      | some v => collectStrings v
      | none => []
    let viewLabel := allStrings.find? (fun s =>
      containsCI s "view".data ∧ s.any (fun c => isNumChar c))
    parseCountText (viewLabel.map .jstr)
  else viewCount0

/-- Comment count from initial data (line 451). -/
def detailComment0 (initialData : Option JValue) : CommentResult :=
  if jTruthy initialData then extractCommentCount initialData else ⟨none, none⟩

/-- Raw-HTML comment-count fallback (lines 453–455): the whole page,
then the slice of up to 1000 characters after the comments-entry-point
key. -/
def detailCommentHtmlFallback (html : Str) : Option ℚ :=
  match parseCommentsNumber (some (.jstr html)) with
  | some n => some n
  | none =>
    let key := "\"commentsEntryPointHeaderRenderer\"".data
    parseCommentsNumber ((findSubstr html key).map (fun i =>
      .jstr ((html.drop i).take (key.length + 1000))))

/-- Comment count after the HTML fallback (lines 452–459). -/
def detailComment1 (html : Str) (initialData : Option JValue) : CommentResult :=
  if (detailComment0 initialData).count = none then
    match detailCommentHtmlFallback html with
    | some n => ⟨some n, some "html".data⟩
    | none => detailComment0 initialData
  else detailComment0 initialData

/-- Comment-count stage of `fetchVideoDetails` (lines 451–463):
initial data, then the raw HTML, then the innertube `next` call. -/
def detailCommentResult (o : Oracle) (html videoId : Str)
    (initialData : Option JValue) : CommentResult :=
  if (detailComment1 html initialData).count = none then
    let viaNext := fetchCommentCountViaInnertube o html videoId
    if viaNext.count ≠ none then viaNext else detailComment1 html initialData
  else detailComment1 html initialData

/-- Pure field-extraction stage of `fetchVideoDetails` (lines
412–489), operating on the fetched watch page and the two parsed
blobs. -/
def fetchVideoDetailsCore (o : Oracle) (parse : Str → Option Int)
    (videoId html : Str) (playerData : JValue) (initialData : Option JValue) :
    VideoDetail :=
  let details := keepTruthy (jGet playerData "videoDetails".data)
  let micro := keepTruthy (jGetO (jGet playerData "microformat".data)
    "playerMicroformatRenderer".data)
  let durationSeconds := jsNumberCoerce (jGetO details "lengthSeconds".data)
  let publishRaw :=
    match keepTruthy (jGetO micro "publishDate".data) with
    | some v => some v
    | none => keepTruthy (jGetO micro "uploadDate".data)
  let captionTracks0 : JValue :=
    match keepTruthy (jGetO (jGetO (jGet playerData "captions".data)
        "playerCaptionsTracklistRenderer".data) "captionTracks".data) with
    | some v => v
    | none => .jarr []
  let transcript0 := o.transcriptFromTracks captionTracks0
  let viewCount := detailViewCount details initialData
  let likeCount := likeCountFrom initialData
  let comment := detailCommentResult o html videoId initialData
  let description0 : JValue :=
    match keepTruthy (jGetO details "shortDescription".data) with
    | some v => v
    | none => .jstr (getText (jGetO micro "description".data))
  let descEmptyish (d : JValue) : Bool :=
    !jTruthyV d || (match d with | .jstr s => jsTrim s = [] | _ => false)
  let retried :=
    if descEmptyish description0 ∨ transcript0 = none then
      let playerViaInnertube := fetchPlayerDataViaInnertube o html videoId
      let innerDetails := keepTruthy (jGetO playerViaInnertube "videoDetails".data)
      let description1 :=
        match (if descEmptyish description0 then
                 keepTruthy (jGetO innerDetails "shortDescription".data)
               else none) with
        | some v => v
        | none => description0
      let transcript1 :=
        if transcript0 = none then
          let captionTracks1 :=
            match keepTruthy (jGetO (jGetO (jGetO playerViaInnertube "captions".data)
                "playerCaptionsTracklistRenderer".data) "captionTracks".data) with
            | some v => v
            | none => captionTracks0
          o.transcriptFromTracks captionTracks1
        else transcript0
      (description1, transcript1)
    else (description0, transcript0)
  let releaseIso := normalizeIsoDate parse (publishRaw)
  { description := if jTruthyV retried.1 then retried.1 else .jstr [],
    transcript := retried.2,
    duration :=
      match durationSeconds with
      | some q => if 0 < q then some q else none
      | none => none,
    viewCount := viewCount,
    likeCount := likeCount,
    commentCount := comment.count,
    commentCountSource := comment.source,
    releaseDate := releaseIso }

/-- Model of `fetchVideoDetails` (lines 385–490), parameterized by the
collaborators and the engine date parser.  `Except.error ()` models a
thrown error (failed watch-page fetch, missing player blob, or JSON
parse failure). -/
def fetchVideoDetails (o : Oracle) (parse : Str → Option Int) (videoId : Str) :
    Except Unit VideoDetail := do
  let html ← (o.fetchHtml ("https://www.youtube.com/watch?v=".data ++ videoId)).mapError
    (fun _ => ())
  let some playerJsonString := extractJsonByMarkers html playerMarkers
    | Except.error ()
  let initialDataString := extractJsonByMarkers html initialDataMarkers
  let some playerData := o.jsonParse playerJsonString
    | Except.error ()
  let initialData : Option JValue ←
    match initialDataString with
    | none => pure none
    | some s =>
      match o.jsonParse s with
      | none => Except.error ()
      | some d => pure (some d)
  pure (fetchVideoDetailsCore o parse videoId html playerData initialData)

/-- Lightweight per-video stub built from the listing page
(lines 543–551). -/
structure VideoStub where
  videoId : JValue
  title : Str
  relativePublished : Option Str
  durationText : Option Str
  viewCount : Option ℚ

/-- A video record of the final snapshot (lines 563–575 and
584–596). -/
structure VideoRecord where
  videoId : JValue
  title : Str
  description : JValue
  transcript : Option Str
  duration : ℚ
  releaseDate : Option Str
  viewCount : ℚ
  likeCount : Option ℚ
  commentCount : Option ℚ
  videoUrl : Str
  thumbnail : Str

/-- The snapshot returned by `scrapeYouTubeChannelData`
(lines 601–605). -/
structure ChannelSnapshot where
  channelId : JValue
  channelTitle : JValue
  videos : List VideoRecord

/-- Failure labels of `scrapeYouTubeChannelData`'s throw sites; a
network failure of the listing fetch propagates as `network`. -/
inductive ScrapeError where
  | invalidUrl
  | network
  | initialDataNotFound
  | parseFailed
  | videosTabNotFound
  | noVideos
  deriving DecidableEq

/-- Model of one element of the `renderers.slice(0, maxVideos).map`
mapping (lines 543–551). -/
def stubOfRenderer (vr : JValue) : VideoStub :=
  { videoId :=
      (match keepTruthy (jGet vr "videoId".data) with
       | some v => v
       | none => .jstr []),
    title := getText (jGet vr "title".data),
    relativePublished :=
      (let t := getText (jGet vr "publishedTimeText".data)
       if t = [] then none else some t),
    durationText :=
      (let t := getText (jGet vr "lengthText".data)
       if t = [] then none else some t),
    viewCount := parseCountText (some (.jstr (getText (jGet vr "viewCountText".data)))) }

/-- Model of one iteration of the per-video loop (lines 554–598): a
successful detail fetch merges stub and detail, a thrown fetch is
caught and yields the stub-only fallback record. -/
def buildRecord (o : Oracle) (parse : Str → Option Int) (now : Int)
    (v : VideoStub) : VideoRecord :=
  let videoIdStr := jsToStringV v.videoId
  match fetchVideoDetails o parse videoIdStr with
  | .ok detail =>
    let induced :=
      if detail.releaseDate = none then backwardInductionDate v.relativePublished now
      else none
    let inducedIso :=
      match induced with
      | some ms => normalizeIsoDate parse (some (.jstr (isoStringOfMs ms)))
      | none => none
    let finalIso :=
      match detail.releaseDate with
      | some s => some s
      | none => inducedIso
    let finalDurationSeconds :=
      match detail.duration with
      | some q => some q
      | none => parseDurationTextSeconds v.durationText
    { videoId := v.videoId,
      title := v.title,
      description :=
        (if jTruthyV detail.description then detail.description else .jstr []),
      transcript :=
        (match detail.transcript with
         | some s => if s = [] then none else some s
         | none => none),
      duration := (match finalDurationSeconds with | some q => q | none => 0),
      releaseDate := finalIso,
      viewCount :=
        (match detail.viewCount with
         | some q => q
         | none => match v.viewCount with | some q => q | none => 0),
      likeCount := detail.likeCount,
      commentCount := detail.commentCount,
      videoUrl := "https://www.youtube.com/watch?v=".data ++ videoIdStr,
      thumbnail := "https://i.ytimg.com/vi/".data ++ videoIdStr ++ "/hqdefault.jpg".data }
  | .error _ =>
    let induced := backwardInductionDate v.relativePublished now
    let inducedIso :=
      match induced with
      | some ms => normalizeIsoDate parse (some (.jstr (isoStringOfMs ms)))
      | none => none
    let fallbackDurationSeconds := parseDurationTextSeconds v.durationText
    { videoId := v.videoId,
      title := v.title,
      description := .jstr [],
      transcript := none,
      duration := (match fallbackDurationSeconds with | some q => q | none => 0),
      releaseDate := inducedIso,
      viewCount := (match v.viewCount with | some q => q | none => 0),
      likeCount := none,
      commentCount := none,
      videoUrl := "https://www.youtube.com/watch?v=".data ++ videoIdStr,
      thumbnail := "https://i.ytimg.com/vi/".data ++ videoIdStr ++ "/hqdefault.jpg".data }

/-- The listing stage of `scrapeYouTubeChannelData` (lines 514–551): URL
validation, listing fetch, `ytInitialData` extraction and parse, tab
choice, renderer collection, and the stub list (truncated to the
clamped `maxVideos` and filtered to truthy ids). -/
def scrapeStubs (o : Oracle) (channelUrl : Str) (rawMaxVideos : JSArg) :
    Except ScrapeError (ChannelMeta × List VideoStub) := do
  let some handle := extractHandle channelUrl
    | Except.error .invalidUrl
  let maxVideos := clampMaxVideos rawMaxVideos
  let videosPageUrl := "https://www.youtube.com/@".data ++ handle ++ "/videos".data
  let html ← (o.fetchHtml videosPageUrl).mapError (fun _ => ScrapeError.network)
  let some ytInitialDataRaw := extractJsonByMarkers html initialDataMarkers
    | Except.error .initialDataNotFound
  let some ytInitialData := o.jsonParse ytInitialDataRaw
    | Except.error .parseFailed
  let some videosTab := pickVideosTab (some ytInitialData)
    | Except.error .videosTabNotFound
  let channelMeta := extractChannelMeta (some ytInitialData) handle
  let renderers := collectVideoRenderers videosTab
  if renderers.isEmpty then Except.error .noVideos
  else
    let sliceLen : Nat := match maxVideos with | some n => n.toNat | none => 0
    let top := ((renderers.take sliceLen).map stubOfRenderer).filter
      (fun v => jTruthyV v.videoId)
    pure (channelMeta, top)

/-- Model of `scrapeYouTubeChannelData` (lines 514–606). -/
def scrapeYouTubeChannelData (o : Oracle) (parse : Str → Option Int) (now : Int)
    (channelUrl : Str) (rawMaxVideos : JSArg) : Except ScrapeError ChannelSnapshot := do
  let (channelMeta, top) ← scrapeStubs o channelUrl rawMaxVideos
  let videos := top.map (buildRecord o parse now)
  if videos.isEmpty then Except.error .noVideos
  else
    pure { channelId := channelMeta.channelId,
           channelTitle := channelMeta.channelTitle,
           videos := videos }

/-- Timestamp of 2024-01-15T00:00:00Z. -/
def ms20240115 : Int := daysFromCivil 2024 1 15 * msPerDay

/-- Timestamp of 2024-02-29T00:00:00Z. -/
def ms20240229 : Int := daysFromCivil 2024 2 29 * msPerDay

/-- Timestamp of 2020-01-01T00:00:00Z. -/
def ms20200101 : Int := daysFromCivil 2020 1 1 * msPerDay

/-- Fixture: listing-page JSON text with one video entry (the exact
serialization of `fixListingTree`). -/
def fixListingJson : Str := "\x7b\"contents\":\x7b\"twoColumnBrowseResultsRenderer\":\x7b\"tabs\":[\x7b\"tabRenderer\":\x7b\"title\":\"Videos\"\x7d,\"content\":\x7b\"videoRenderer\":\x7b\"videoId\":\"ab\",\"title\":\x7b\"simpleText\":\"T1\"\x7d\x7d\x7d\x7d]\x7d\x7d\x7d".data

/-- Fixture: the parsed tree of `fixListingJson`. -/
def fixListingTree : JValue :=
  .jobj [("contents".data, .jobj [("twoColumnBrowseResultsRenderer".data, .jobj
    [("tabs".data, .jarr [
      .jobj [("tabRenderer".data, .jobj [("title".data, .jstr "Videos".data)]),
             ("content".data, .jobj [("videoRenderer".data, .jobj [
                ("videoId".data, .jstr "ab".data),
                ("title".data, .jobj [("simpleText".data, .jstr "T1".data)])])])]])])])]

/-- Fixture: listing-page JSON text with two video entries (the exact
serialization of `fix2ListingTree`). -/
def fix2ListingJson : Str := "\x7b\"contents\":\x7b\"twoColumnBrowseResultsRenderer\":\x7b\"tabs\":[\x7b\"tabRenderer\":\x7b\"title\":\"Videos\"\x7d,\"content\":\x7b\"a\":\x7b\"videoRenderer\":\x7b\"videoId\":\"ab\",\"title\":\x7b\"simpleText\":\"T1\"\x7d\x7d\x7d,\"b\":\x7b\"videoRenderer\":\x7b\"videoId\":\"cd\",\"title\":\x7b\"simpleText\":\"T2\"\x7d\x7d\x7d\x7d\x7d]\x7d\x7d\x7d".data

/-- Fixture: the parsed tree of `fix2ListingJson`. -/
def fix2ListingTree : JValue :=
  .jobj [("contents".data, .jobj [("twoColumnBrowseResultsRenderer".data, .jobj
    [("tabs".data, .jarr [
      .jobj [("tabRenderer".data, .jobj [("title".data, .jstr "Videos".data)]),
             ("content".data, .jobj [
               ("a".data, .jobj [("videoRenderer".data, .jobj [
                  ("videoId".data, .jstr "ab".data),
                  ("title".data, .jobj [("simpleText".data, .jstr "T1".data)])])]),
               ("b".data, .jobj [("videoRenderer".data, .jobj [
                  ("videoId".data, .jstr "cd".data),
                  ("title".data, .jobj [("simpleText".data, .jstr "T2".data)])])])])]])])])]

/-- Fixture: watch-page player-response JSON text (serialization of
`fixPlayerTree`; it carries none of the metadata fields). -/
def fixPlayerJson : Str := "\x7b\"x\":1\x7d".data

/-- Fixture: the parsed tree of `fixPlayerJson`. -/
def fixPlayerTree : JValue := .jobj [("x".data, .jnum 1)]

/-- Fixture: the listing page HTML embedding `fixListingJson`. -/
def fixListingHtml : Str :=
  "<html>var ytInitialData = ".data ++ fixListingJson ++ ";</html>".data

/-- Fixture: the listing page HTML embedding `fix2ListingJson`. -/
def fix2ListingHtml : Str :=
  "<html>var ytInitialData = ".data ++ fix2ListingJson ++ ";</html>".data

/-- Fixture: the watch page HTML embedding `fixPlayerJson` (no
`ytInitialData` blob, no innertube config, no comment labels). -/
def fixWatchHtml : Str :=
  "<html>var ytInitialPlayerResponse = ".data ++ fixPlayerJson ++ ";</html>".data

/-- Fixture: the channel's videos-page URL for handle `c`. -/
def fixListingUrl : Str := "https://www.youtube.com/@c/videos".data

/-- Fixture: the watch URL of video `ab`. -/
def fixWatchUrl : Str := "https://www.youtube.com/watch?v=ab".data

/-- Fixture oracle: serves the one-video listing and the minimal watch
page; `jsonParse` parses exactly the two embedded texts to their trees;
transcript and innertube collaborators yield nothing. -/
def fixOracle : Oracle :=
  { fetchHtml := fun url =>
      if url = fixListingUrl then .ok fixListingHtml
      else if url = fixWatchUrl then .ok fixWatchHtml
      else .error (),
    jsonParse := fun s =>
      if s = fixListingJson then some fixListingTree
      else if s = fixPlayerJson then some fixPlayerTree
      else none,
    transcriptFromTracks := fun _ => none,
    innertubeNext := fun _ _ _ => none,
    innertubePlayer := fun _ _ _ => none }

/-- Fixture oracle: the same listing, but every watch-page fetch fails
(simulated network failure). -/
def fixFailOracle : Oracle :=
  { fixOracle with fetchHtml := fun url =>
      if url = fixListingUrl then .ok fixListingHtml else .error () }

/-- Fixture oracle: serves the two-video listing; every watch-page
fetch fails. -/
def fix2Oracle : Oracle :=
  { fetchHtml := fun url =>
      if url = fixListingUrl then .ok fix2ListingHtml else .error (),
    jsonParse := fun s =>
      if s = fix2ListingJson then some fix2ListingTree else none,
    transcriptFromTracks := fun _ => none,
    innertubeNext := fun _ _ _ => none,
    innertubePlayer := fun _ _ _ => none }

/-- Fixture oracle: every network request fails. -/
def emptyOracle : Oracle :=
  { fetchHtml := fun _ => .error (),
    jsonParse := fun _ => none,
    transcriptFromTracks := fun _ => none,
    innertubeNext := fun _ _ _ => none,
    innertubePlayer := fun _ _ _ => none }

/-- Fixture: a watch-page `ytInitialData` tree in which the like count
appears both as the UI label `1.2K` (under the key `likeButton`, via
`getText`) and as the raw value `1,243` (under the key `likeCount`). -/
def fixLikeTree : JValue :=
  .jobj [("likeButton".data, .jobj [("simpleText".data, .jstr "1.2K".data)]),
         ("likeCount".data, .jstr "1,243".data)]

/-- Fixture: a watch-page `ytInitialData` tree whose only like-related
datum is the bare label `1.2K` on a top-level button, reachable from
the like-related UI container but mentioning no `like` word and sitting
under no `/like/i` key. -/
def fixLikeButtonsTree : JValue :=
  .jobj [("contents".data, .jobj [("twoColumnWatchNextResults".data, .jobj
    [("results".data, .jobj [("results".data, .jobj [("contents".data, .jarr [
      .jobj [("videoPrimaryInfoRenderer".data, .jobj [("videoActions".data, .jobj
        [("menuRenderer".data, .jobj [("topLevelButtons".data, .jarr [
          .jobj [("text".data, .jstr "1.2K".data)]])])])])]])])])])])]

/-- Model of `/ago$/i.test(s)`: whether the lower-cased string ends in
`ago`. -/
def agoRegexTest (s : Str) : Bool := "ago".data.isSuffixOf (lowerStr s)

/-- Fixture: the stub the listing stage produces for video `ab`. -/
def fixStub : VideoStub :=
  { videoId := .jstr "ab".data, title := "T1".data, relativePublished := none,
    durationText := none, viewCount := none }

/-- Fixture: the channel metadata of the fixture listing (both fields
fall back to the handle). -/
def fixMeta : ChannelMeta :=
  { channelTitle := .jstr "c".data, channelId := .jstr "c".data }

/-- Fixture: the record emitted for video `ab`, identical under
`fixOracle` (metadata-free watch page) and `fixFailOracle` (failing
watch fetch). -/
def fixVideoRecord : VideoRecord :=
  { videoId := .jstr "ab".data, title := "T1".data, description := .jstr [],
    transcript := none, duration := 0, releaseDate := none, viewCount := 0,
    likeCount := none, commentCount := none,
    videoUrl := "https://www.youtube.com/watch?v=ab".data,
    thumbnail := "https://i.ytimg.com/vi/ab/hqdefault.jpg".data }

/-- Fixture: the snapshot of the one-video fixtures. -/
def fixSnapshot : ChannelSnapshot :=
  { channelId := .jstr "c".data, channelTitle := .jstr "c".data,
    videos := [fixVideoRecord] }

/-- Return condition of the scan loop: outside a string, at a closing brace,
with the depth about to reach zero (line 34). -/
def retCondB : Int × Bool × Bool → Char → Bool
  | ⟨depth, inString, _⟩, ch => !inString && (ch == '\x7d') && (depth == 1)

/-- The scan loop traverses the whole list without triggering the return
condition at any position. -/
def noRet (st : Int × Bool × Bool) : Str → Bool
  | [] => true
  | c :: rest => !retCondB st c && noRet (jsonStep st c) rest

/-- Brace depth (with string-literal tracking) accumulated over a prefix,
starting from the initial scanner state. -/
def scanDepth (blob : Str) : Int := (blob.foldl jsonStep ⟨0, false, false⟩).1

/-- Specification predicate: `blob` opens with a brace, its total tracked
depth is zero, and no shorter nonempty prefix has depth zero — i.e. `blob`
runs from an opening brace exactly through its matching closing brace. -/
def isMinimalBalanced (blob : Str) : Bool :=
  decide (blob.head? = some '\x7b') && decide (scanDepth blob = 0) &&
    (List.range blob.length).all
      (fun k => decide (k = 0) || !(decide (scanDepth (blob.take k) = 0)))

/-- Fixture: a page whose embedded JSON contains an escaped quote and literal
braces inside a string value. -/
def c1Html : Str := "var x = \x7b\"a\":\"b\\\"\x7bc\x7d\",\"d\":\x7b\"e\":1\x7d\x7d;more".data

/-- Fixture: the assignment marker preceding the fixture blob. -/
def c1Marker : Str := "x = ".data

/-- Fixture: the balanced JSON blob embedded in `c1Html`. -/
def c1Blob : Str := "\x7b\"a\":\"b\\\"\x7bc\x7d\",\"d\":\x7b\"e\":1\x7d\x7d".data

/-- Fixture: the trailing text after the fixture blob. -/
def c1Rest : Str := ";more".data

/-- C4.  The claim asserts that relative month/year subtraction is
calendar-aware, producing 2023-02-28 for `1 year ago` from 2024-02-29.
The code subtracts via `Date.prototype.setFullYear`, whose `MakeDay`
renormalization rolls the non-existent 2023-02-29 over to 2023-03-01,
so the result is `2023-03-01T00:00:00.000Z`, not `2023-02-28`. -/
theorem C4_leapYearRollover_counterexample :
    (normalizeReleaseDate jsDateParseModel (some "1 year ago".data) ms20240229).iso =
      some "2023-03-01T00:00:00.000Z".data ∧
    (normalizeReleaseDate jsDateParseModel (some "1 year ago".data) ms20240229).iso ≠
      some "2023-02-28T00:00:00.000Z".data ∧
    backwardInductionDate (some "1 year ago".data) ms20240229 =
      some (daysFromCivil 2023 3 1 * msPerDay) := by
  refine ⟨by with_unfolding_all rfl, ?_, by with_unfolding_all rfl⟩
  intro h
  have h2 : (normalizeReleaseDate jsDateParseModel (some "1 year ago".data) ms20240229).iso =
      some "2023-03-01T00:00:00.000Z".data := by with_unfolding_all rfl
  rw [h2] at h
  exact absurd (Option.some.inj h) (by decide)

/-- C4 (amended).  `parseRelativeOrAbsoluteDate("3 years ago")` at
2024-01-15 yields an ISO date of 2021-01-15 (year 2021, same month and
day), but month/year subtraction uses the `Date` field setters, which
renormalize overflowing dates: `1 year ago` from 2024-02-29 yields the
rolled-over 2023-03-01, not 2023-02-28.  The hypotheses record that the
engine's `Date.parse` rejects the two relative phrases (V8 yields
`NaN`). -/
theorem C4_relativeDate_amended (parse : Str → Option Int)
    (h3y : parse "3 years ago".data = none)
    (h1y : parse "1 year ago".data = none) :
    normalizeReleaseDate parse (some "3 years ago".data) ms20240115 =
      ⟨some "2021-01-15T00:00:00.000Z".data, some (daysFromCivil 2021 1 15 * msPerDay)⟩ ∧
    normalizeReleaseDate parse (some "1 year ago".data) ms20240229 =
      ⟨some "2023-03-01T00:00:00.000Z".data, some (daysFromCivil 2023 3 1 * msPerDay)⟩ := by
  constructor
  · have e : normalizeReleaseDate parse (some "3 years ago".data) ms20240115 =
        (match parse "3 years ago".data with
         | some p => ⟨some (isoStringOfMs p), some p⟩
         | none => ⟨some "2021-01-15T00:00:00.000Z".data,
             some (daysFromCivil 2021 1 15 * msPerDay)⟩) := by
      with_unfolding_all rfl
    rw [h3y] at e
    exact e
  · have e : normalizeReleaseDate parse (some "1 year ago".data) ms20240229 =
        (match parse "1 year ago".data with
         | some p => ⟨some (isoStringOfMs p), some p⟩
         | none => ⟨some "2023-03-01T00:00:00.000Z".data,
             some (daysFromCivil 2023 3 1 * msPerDay)⟩) := by
      with_unfolding_all rfl
    rw [h1y] at e
    exact e

/-- Witness for C4 (amended) at the concrete engine-parser model. -/
theorem C4_relativeDate_amended_witness :
    normalizeReleaseDate jsDateParseModel (some "3 years ago".data) ms20240115 =
      ⟨some "2021-01-15T00:00:00.000Z".data, some (daysFromCivil 2021 1 15 * msPerDay)⟩ ∧
    normalizeReleaseDate jsDateParseModel (some "1 year ago".data) ms20240229 =
      ⟨some "2023-03-01T00:00:00.000Z".data, some (daysFromCivil 2023 3 1 * msPerDay)⟩ :=
  C4_relativeDate_amended jsDateParseModel (by decide) (by decide)

/-- C5.  The claim asserts `parseRelativeOrAbsoluteDate` strips the
prefixes `streamed`, `premiered` and `uploaded`.  The function
(`normalizeReleaseDate` in `dateNormalization.js`) strips only
`streamed` and `premiered`: on `Uploaded 3 years ago` the un-stripped
text neither parses absolutely (V8 `NaN`, so `none` in the parser
model) nor matches the relative pattern, and the result is null —
whereas the same phrase with a `Streamed` prefix yields a date. -/
theorem C5_uploadedNotStripped_counterexample :
    normalizeReleaseDate jsDateParseModel (some "Uploaded 3 years ago".data) ms20240115 =
      ⟨none, none⟩ ∧
    normalizeReleaseDate jsDateParseModel (some "Streamed 3 years ago".data) ms20240115 =
      ⟨some "2021-01-15T00:00:00.000Z".data, some (daysFromCivil 2021 1 15 * msPerDay)⟩ :=
  ⟨by with_unfolding_all rfl, by with_unfolding_all rfl⟩

/-- C5 (amended).  `parseRelativeOrAbsoluteDate` strips the leading
prefixes `streamed` and `premiered` (but not `uploaded`, which only
`backwardInductionDate` strips) and attempts a general absolute
date-time parse before the relative-phrase path;
`parseRelativeOrAbsoluteDate("Streamed Jan 1, 2020")` yields exactly
`2020-01-01T00:00:00.000Z` (local time zone UTC).  The hypotheses
record the engine parse results: V8 accepts the lower-cased
`jan 1, 2020` as local midnight and rejects the relative phrases. -/
theorem C5_prefixStripping_amended (parse : Str → Option Int)
    (hJan : parse "jan 1, 2020".data = some ms20200101)
    (hUp : parse "uploaded 3 years ago".data = none)
    (hRel : parse "3 years ago".data = none) :
    normalizeReleaseDate parse (some "Streamed Jan 1, 2020".data) ms20240115 =
      ⟨some "2020-01-01T00:00:00.000Z".data, some ms20200101⟩ ∧
    normalizeReleaseDate parse (some "Premiered Jan 1, 2020".data) ms20240115 =
      ⟨some "2020-01-01T00:00:00.000Z".data, some ms20200101⟩ ∧
    normalizeReleaseDate parse (some "Uploaded 3 years ago".data) ms20240115 =
      ⟨none, none⟩ ∧
    normalizeReleaseDate parse (some "Streamed 3 years ago".data) ms20240115 =
      ⟨some "2021-01-15T00:00:00.000Z".data, some (daysFromCivil 2021 1 15 * msPerDay)⟩ := by
  refine ⟨?_, ?_, ?_, ?_⟩
  · have e : normalizeReleaseDate parse (some "Streamed Jan 1, 2020".data) ms20240115 =
        (match parse "jan 1, 2020".data with
         | some p => ⟨some (isoStringOfMs p), some p⟩
         | none => ⟨none, none⟩) := by with_unfolding_all rfl
    rw [hJan] at e
    exact e.trans (by with_unfolding_all rfl)
  · have e : normalizeReleaseDate parse (some "Premiered Jan 1, 2020".data) ms20240115 =
        (match parse "jan 1, 2020".data with
         | some p => ⟨some (isoStringOfMs p), some p⟩
         | none => ⟨none, none⟩) := by with_unfolding_all rfl
    rw [hJan] at e
    exact e.trans (by with_unfolding_all rfl)
  · have e : normalizeReleaseDate parse (some "Uploaded 3 years ago".data) ms20240115 =
        (match parse "uploaded 3 years ago".data with
         | some p => ⟨some (isoStringOfMs p), some p⟩
         | none => ⟨none, none⟩) := by with_unfolding_all rfl
    rw [hUp] at e
    exact e
  · have e : normalizeReleaseDate parse (some "Streamed 3 years ago".data) ms20240115 =
        (match parse "3 years ago".data with
         | some p => ⟨some (isoStringOfMs p), some p⟩
         | none => ⟨some "2021-01-15T00:00:00.000Z".data,
             some (daysFromCivil 2021 1 15 * msPerDay)⟩) := by with_unfolding_all rfl
    rw [hRel] at e
    exact e

/-- Witness for C5 (amended) at the concrete engine-parser model. -/
theorem C5_prefixStripping_amended_witness :
    normalizeReleaseDate jsDateParseModel (some "Streamed Jan 1, 2020".data) ms20240115 =
      ⟨some "2020-01-01T00:00:00.000Z".data, some ms20200101⟩ ∧
    normalizeReleaseDate jsDateParseModel (some "Premiered Jan 1, 2020".data) ms20240115 =
      ⟨some "2020-01-01T00:00:00.000Z".data, some ms20200101⟩ ∧
    normalizeReleaseDate jsDateParseModel (some "Uploaded 3 years ago".data) ms20240115 =
      ⟨none, none⟩ ∧
    normalizeReleaseDate jsDateParseModel (some "Streamed 3 years ago".data) ms20240115 =
      ⟨some "2021-01-15T00:00:00.000Z".data, some (daysFromCivil 2021 1 15 * msPerDay)⟩ :=
  C5_prefixStripping_amended jsDateParseModel (by with_unfolding_all rfl) (by decide)
    (by decide)

/-- Lower-casing never turns a non-numeric character into a digit,
comma or dot. -/
theorem isNumChar_jsToLowerChar (c : Char) (h : isNumChar c = false) :
    isNumChar (jsToLowerChar c) = false := by
  unfold jsToLowerChar
  cases hf : ucPairs.find? (fun p => p.1 = c) with
  | none => exact h
  | some p =>
    have hall : ∀ q ∈ ucPairs, isNumChar q.2 = false := by decide
    exact hall p (List.mem_of_find?_eq_some hf)

theorem findSuffixMatch_none (l : Str) (h : ∀ c ∈ l, isNumChar c = false) :
    findSuffixMatch l = none := by
  induction l with
  | nil => rfl
  | cons c rest ih =>
    rw [findSuffixMatch]
    rw [h c (List.mem_cons_self c rest)]
    simp only [Bool.false_eq_true, if_false]
    exact ih (fun x hx => h x (List.mem_cons_of_mem c hx))

theorem findNumRun_none (l : Str) (h : ∀ c ∈ l, isNumChar c = false) :
    findNumRun l = none := by
  induction l with
  | nil => rfl
  | cons c rest ih =>
    rw [findNumRun]
    rw [h c (List.mem_cons_self c rest)]
    simp only [Bool.false_eq_true, if_false]
    exact ih (fun x hx => h x (List.mem_cons_of_mem c hx))

theorem mem_jsTrim (c : Char) (s : Str) (h : c ∈ jsTrim s) : c ∈ s := by
  unfold jsTrim at h
  rw [List.mem_reverse] at h
  have h2 := (List.dropWhile_sublist (l := (s.dropWhile isJsWS).reverse) isJsWS).subset h
  rw [List.mem_reverse] at h2
  exact (List.dropWhile_sublist isJsWS).subset h2

theorem parseCountText_none_of_noNumChar (s : Str)
    (h : ∀ c ∈ s, isNumChar c = false) :
    parseCountText (some (.jstr s)) = none := by
  have htext : ∀ c ∈ jsTrim s, isNumChar c = false :=
    fun c hc => h c (mem_jsTrim c s hc)
  have hcompact : ∀ c ∈ (lowerStr (jsTrim s)).filter (fun c => ¬isJsWS c),
      isNumChar c = false := by
    intro c hc
    have hc2 := (List.mem_filter.mp hc).1
    rw [lowerStr, List.mem_map] at hc2
    obtain ⟨c0, hc0, rfl⟩ := hc2
    exact isNumChar_jsToLowerChar c0 (htext c0 hc0)
  unfold parseCountText
  simp only [jsToStringV]
  split
  · rfl
  · rw [findSuffixMatch_none _ hcompact, findNumRun_none _ htext]

/-- C8.  The claim asserts `parseCount` returns an integer whenever it
does not return null, and returns null exactly when no numeric
substring occurs.  Both universal parts fail: without a `k`/`m`/`b`
suffix no rounding happens, so `parseCount("1.5")` is the non-integer
`3/2`; and `parseCount(",")` is `0` (the comma run matches `[\d,.]+`,
the commas are stripped, and `Number("") = 0`) although `","` contains
no numeral. -/
theorem C8_parseCount_counterexample :
    parseCountText (some (.jstr "1.5".data)) = some ((3 : ℚ)/2) ∧
    ((3 : ℚ)/2).den = 2 ∧
    parseCountText (some (.jstr ",".data)) = some 0 :=
  ⟨by with_unfolding_all rfl, by with_unfolding_all rfl, by with_unfolding_all rfl⟩

/-- C8 (amended).  `parseCount` returns null whenever the text contains
no character of the class `[0-9,.]`; a recognized trailing `k`/`m`/`b`
suffix yields the rounded scaled value; otherwise the first `[\d,.]`
run is parsed as-is and may be fractional or `0`;
`parseCount("1.2M") = 1200000`, `parseCount("3,400") = 3400` and
`parseCount("no data") = null`. -/
theorem C8_parseCount_amended (s : Str) (h : ∀ c ∈ s, isNumChar c = false) :
    parseCountText (some (.jstr s)) = none ∧
    parseCountText (some (.jstr "1.2M".data)) = some 1200000 ∧
    parseCountText (some (.jstr "3,400".data)) = some 3400 ∧
    parseCountText (some (.jstr "no data".data)) = none :=
  ⟨parseCountText_none_of_noNumChar s h, by with_unfolding_all rfl,
   by with_unfolding_all rfl, by with_unfolding_all rfl⟩

/-- Witness for C8 (amended) at the concrete input `count pending`. -/
theorem C8_parseCount_amended_witness :
    parseCountText (some (.jstr "count pending".data)) = none ∧
    parseCountText (some (.jstr "1.2M".data)) = some 1200000 ∧
    parseCountText (some (.jstr "3,400".data)) = some 3400 ∧
    parseCountText (some (.jstr "no data".data)) = none :=
  C8_parseCount_amended "count pending".data (by decide)

/-- Computation rule of `Except` bind on a success. -/
@[simp] theorem except_bind_ok {α β ε : Type} (a : α) (f : α → Except ε β) :
    (Except.ok (ε := ε) a >>= f) = f a := rfl

/-- Computation rule of `Except` bind on a failure. -/
@[simp] theorem except_bind_error {α β ε : Type} (e : ε) (f : α → Except ε β) :
    (Except.error (α := α) e >>= f) = Except.error e := rfl

/-- Computation rule of `Except.mapError` on a success. -/
@[simp] theorem except_mapError_ok {α ε δ : Type} (a : α) (f : ε → δ) :
    Except.mapError f (Except.ok a) = Except.ok a := rfl

/-- Computation rule of `Except.mapError` on a failure. -/
@[simp] theorem except_mapError_error {α ε δ : Type} (e : ε) (f : ε → δ) :
    Except.mapError f (Except.error (α := α) e) = Except.error (f e) := rfl

/-- Computation rule of `pure` in `Except`. -/
@[simp] theorem except_pure_eq_ok {α ε : Type} (a : α) :
    (pure a : Except ε α) = Except.ok a := rfl

/-- The scraper fails with the invalid-URL error exactly when the
handle cannot be extracted, for every behaviour of the network, the
JSON parser and the date parser. -/
theorem scrape_invalidUrl_iff (o : Oracle) (parse : Str → Option Int) (now : Int)
    (channelUrl : Str) (rawMaxVideos : JSArg) :
    scrapeYouTubeChannelData o parse now channelUrl rawMaxVideos =
      .error .invalidUrl ↔ extractHandle channelUrl = none := by
  unfold scrapeYouTubeChannelData scrapeStubs
  cases hh : extractHandle channelUrl with
  | none => simp
  | some handle =>
    simp only []
    constructor
    · intro hc
      exfalso
      revert hc
      cases hf : o.fetchHtml ("https://www.youtube.com/@".data ++ handle ++ "/videos".data) with
      | error e => simp [hf, Except.bind]
      | ok html =>
        cases hx : extractJsonByMarkers html initialDataMarkers with
        | none => simp [hf, hx, Except.bind]
        | some raw =>
          cases hj : o.jsonParse raw with
          | none => simp [hf, hx, hj, Except.bind]
          | some data =>
            cases ht : pickVideosTab (some data) with
            | none => simp [hf, hx, hj, ht, Except.bind]
            | some tab =>
              by_cases hr : (collectVideoRenderers tab).isEmpty
              · simp [hf, hx, hj, ht, hr, Except.bind]
              · simp only [hf, hx, hj, ht, except_mapError_ok, except_bind_ok,
                  except_bind_error, except_pure_eq_ok]
                rw [if_neg (by simpa using hr)]
                simp only [except_bind_ok]
                split
                · simp
                · simp
    · intro hn
      exact absurd hn (by simp)

/-- Computation rule of `Nat.toDigitsCore` at zero fuel. -/
theorem toDigitsCore_zero (n : Nat) (ds : Str) :
    Nat.toDigitsCore 10 0 n ds = ds := rfl

/-- Computation rule of `Nat.toDigitsCore` at positive fuel. -/
theorem toDigitsCore_succ (fuel n : Nat) (ds : Str) :
    Nat.toDigitsCore 10 (fuel + 1) n ds =
      if n / 10 = 0 then Nat.digitChar (n % 10) :: ds
      else Nat.toDigitsCore 10 fuel (n / 10) (Nat.digitChar (n % 10) :: ds) := rfl

/-- Character facts for decimal digit characters. -/
theorem digitChar_facts (k : Nat) (h : k < 10) :
    (Nat.digitChar k).isDigit = true ∧ (Nat.digitChar k).toNat = 48 + k := by
  have hf : ∀ j : Fin 10, (Nat.digitChar j.val).isDigit = true ∧
      (Nat.digitChar j.val).toNat = 48 + j.val := by decide
  exact hf ⟨k, h⟩

/-- Value of the digit fold over `Nat.toDigitsCore` output: the rendered
digits of `n` contribute `n` to the running accumulator. -/
theorem toDigitsCore_val : ∀ (fuel n : Nat), n < fuel → ∀ (ds : Str),
    ∃ p : Nat, 0 < p ∧ n < p ∧
      ∀ a : Nat, (Nat.toDigitsCore 10 fuel n ds).foldl
          (fun acc c => acc * 10 + (c.toNat - '0'.toNat)) a =
        ds.foldl (fun acc c => acc * 10 + (c.toNat - '0'.toNat)) (a * p + n) := by
  intro fuel
  induction fuel with
  | zero => intro n h; omega
  | succ fuel ih =>
    intro n h ds
    rw [toDigitsCore_succ]
    by_cases h0 : n / 10 = 0
    · refine ⟨10, by omega, by omega, fun a => ?_⟩
      rw [if_pos h0]
      rw [List.foldl_cons]
      have hd := (digitChar_facts (n % 10) (Nat.mod_lt n (by norm_num))).2
      rw [hd]
      congr 1
      have h48 : '0'.toNat = 48 := rfl
      omega
    · have hn10 : n / 10 < fuel := by omega
      obtain ⟨p, hp0, hnp, hfold⟩ := ih (n / 10) hn10 (Nat.digitChar (n % 10) :: ds)
      refine ⟨10 * p, by omega, by omega, fun a => ?_⟩
      rw [if_neg h0]
      rw [hfold a]
      rw [List.foldl_cons]
      have hd := (digitChar_facts (n % 10) (Nat.mod_lt n (by norm_num))).2
      rw [hd]
      congr 1
      have h48 : '0'.toNat = 48 := rfl
      have hmul : a * (10 * p) = a * p * 10 := by ring
      rw [hmul]
      omega

/-- The decimal rendering of a natural number parses back to it. -/
theorem digitsToNat_toDigits (m : Nat) : digitsToNat (Nat.toDigits 10 m) = m := by
  obtain ⟨p, -, -, hfold⟩ := toDigitsCore_val (m + 1) m (Nat.lt_succ_self m) []
  have := hfold 0
  rw [Nat.toDigits, digitsToNat, this]
  simp

/-- Every character produced by `Nat.toDigitsCore` on base 10 is a decimal
digit with code point between 48 and 57. -/
theorem toDigitsCore_char_facts : ∀ (fuel n : Nat) (ds : Str),
    (∀ c ∈ ds, c.isDigit = true ∧ 48 ≤ c.toNat ∧ c.toNat ≤ 57) →
    ∀ c ∈ Nat.toDigitsCore 10 fuel n ds,
      c.isDigit = true ∧ 48 ≤ c.toNat ∧ c.toNat ≤ 57 := by
  intro fuel
  induction fuel with
  | zero =>
    intro n ds h
    rw [toDigitsCore_zero]
    exact h
  | succ fuel ih =>
    intro n ds h
    rw [toDigitsCore_succ]
    have hstep : ∀ c ∈ Nat.digitChar (n % 10) :: ds,
        c.isDigit = true ∧ 48 ≤ c.toNat ∧ c.toNat ≤ 57 := by
      intro c hc
      rcases List.mem_cons.mp hc with rfl | hc
      · obtain ⟨h1, h2⟩ := digitChar_facts (n % 10) (Nat.mod_lt n (by norm_num))
        exact ⟨h1, by omega, by omega⟩
      · exact h c hc
    by_cases h0 : n / 10 = 0
    · rw [if_pos h0]
      exact hstep
    · rw [if_neg h0]
      exact ih (n / 10) _ hstep

/-- Character facts for the base-10 rendering of a natural number. -/
theorem toDigits_char_facts (m : Nat) :
    ∀ c ∈ Nat.toDigits 10 m, c.isDigit = true ∧ 48 ≤ c.toNat ∧ c.toNat ≤ 57 :=
  toDigitsCore_char_facts (m + 1) m [] (by simp)

/-- `Nat.toDigitsCore` never shrinks a nonempty accumulator to nil. -/
theorem toDigitsCore_ne_nil : ∀ (fuel n : Nat) (ds : Str), ds ≠ [] →
    Nat.toDigitsCore 10 fuel n ds ≠ [] := by
  intro fuel
  induction fuel with
  | zero =>
    intro n ds h
    rw [toDigitsCore_zero]
    exact h
  | succ fuel ih =>
    intro n ds h
    rw [toDigitsCore_succ]
    by_cases h0 : n / 10 = 0
    · rw [if_pos h0]
      exact List.cons_ne_nil _ _
    · rw [if_neg h0]
      exact ih (n / 10) _ (List.cons_ne_nil _ _)

/-- The base-10 rendering of a natural number is nonempty. -/
theorem toDigits_ne_nil (m : Nat) : Nat.toDigits 10 m ≠ [] := by
  rw [Nat.toDigits]
  cases m with
  | zero => exact List.cons_ne_nil _ _
  | succ m =>
    rw [toDigitsCore_succ]
    by_cases h0 : (m + 1) / 10 = 0
    · rw [if_pos h0]
      exact List.cons_ne_nil _ _
    · rw [if_neg h0]
      exact toDigitsCore_ne_nil _ _ _ (List.cons_ne_nil _ _)

/-- A decimal digit character is not JavaScript whitespace. -/
theorem isDigit_not_ws (c : Char) (h : c.isDigit = true) : isJsWS c = false := by
  simp only [isJsWS, decide_eq_false_iff_not]
  rintro (rfl | rfl | rfl | rfl | rfl | rfl | rfl) <;> exact absurd h (by decide)

/-- A decimal digit character is neither a minus nor a plus sign. -/
theorem isDigit_ne_sign (c : Char) (h : c.isDigit = true) : c ≠ '-' ∧ c ≠ '+' :=
  ⟨fun e => absurd (e ▸ h) (by decide), fun e => absurd (e ▸ h) (by decide)⟩

/-- Evaluation of `parseInt` on input whose head is a decimal digit. -/
theorem jsParseIntStr_cons_digit (d : Char) (t : Str) (hdd : d.isDigit = true) :
    jsParseIntStr (d :: t) =
      (if (d :: t).takeWhile Char.isDigit = [] then none
       else some ((digitsToNat ((d :: t).takeWhile Char.isDigit) : Nat) : Int)) := by
  rw [jsParseIntStr]
  rw [List.dropWhile_cons, if_neg (by simp [isDigit_not_ws d hdd])]
  split
  · next r heq =>
      injection heq with h1 h2
      exact absurd h1 (isDigit_ne_sign d hdd).1
  · next r heq =>
      injection heq with h1 h2
      exact absurd h1 (isDigit_ne_sign d hdd).2
  · rfl

/-- Evaluation of `parseInt` on input whose head is a minus sign. -/
theorem jsParseIntStr_cons_dash (t : Str) :
    jsParseIntStr ('-' :: t) =
      (if t.takeWhile Char.isDigit = [] then none
       else some (-((digitsToNat (t.takeWhile Char.isDigit) : Nat) : Int))) := by
  rw [jsParseIntStr]
  rw [List.dropWhile_cons, if_neg (by decide)]
  split
  · next r heq =>
      injection heq with h1 h2
      subst h2
      rfl
  · next r heq =>
      injection heq with h1 h2
      exact absurd h1 (by decide)
  · next h1 h2 => exact absurd h1 (by simp)

/-- `parseInt` on a nonempty all-digit string yields its decimal value. -/
theorem jsParseIntStr_digits (ds : Str) (hne : ds ≠ [])
    (hd : ∀ c ∈ ds, c.isDigit = true) :
    jsParseIntStr ds = some (digitsToNat ds : Int) := by
  cases ds with
  | nil => exact absurd rfl hne
  | cons d t =>
    rw [jsParseIntStr_cons_digit d t (hd d (List.mem_cons_self d t))]
    rw [List.takeWhile_eq_self_iff.mpr hd]
    rw [if_neg (List.cons_ne_nil d t)]

/-- The model stringification of an integral number below 10^21 in magnitude
(plain decimal) parses back to the same integer. -/
theorem jsParseIntStr_intToStr (n : Int) : jsParseIntStr (intToStr n) = some n := by
  rw [intToStr]
  by_cases hneg : n < 0
  · rw [if_pos hneg, jsParseIntStr_cons_dash]
    rw [List.takeWhile_eq_self_iff.mpr (fun c hc => (toDigits_char_facts _ c hc).1)]
    rw [if_neg (toDigits_ne_nil _), digitsToNat_toDigits]
    congr 1
    omega
  · rw [if_neg hneg]
    rw [jsParseIntStr_digits _ (toDigits_ne_nil _)
      (fun c hc => (toDigits_char_facts _ c hc).1)]
    rw [digitsToNat_toDigits]
    congr 1
    omega

/-- All-zero digit strings have decimal value zero. -/
theorem digitsToNat_all_zero : ∀ (ds : Str), (∀ c ∈ ds, c = '0') →
    digitsToNat ds = 0 := by
  intro ds
  induction ds with
  | nil => intro h; rfl
  | cons c rest ih =>
    intro h
    have hc := h c (List.mem_cons_self c rest)
    subst hc
    have hstep : digitsToNat ('0' :: rest) = digitsToNat rest := by
      rw [digitsToNat, digitsToNat, List.foldl_cons]
      norm_num
    rw [hstep]
    exact ih (fun c hc => h c (List.mem_cons_of_mem _ hc))

/-- `parseInt` on a digit followed by a non-digit tail reads exactly that
digit, with and without a leading minus sign. -/
theorem jsParseIntStr_digit_head (d0 : Char) (t : Str) (hd : d0.isDigit = true)
    (hnd : (d0 :: t).takeWhile Char.isDigit = [d0]) :
    jsParseIntStr (d0 :: t) = some ((digitsToNat [d0] : Nat) : Int) ∧
    jsParseIntStr ('-' :: d0 :: t) = some (-((digitsToNat [d0] : Nat) : Int)) := by
  constructor
  · rw [jsParseIntStr_cons_digit d0 t hd, hnd, if_neg (List.cons_ne_nil d0 [])]
  · rw [jsParseIntStr_cons_dash, hnd, if_neg (List.cons_ne_nil d0 [])]

/-- The exponential rendering of a magnitude at least 10^21 parses to a
single digit: at most 9 in magnitude, and nonpositive for negative input. -/
theorem jsParseIntStr_big (n : Int) (h : 10 ^ 21 ≤ n.natAbs) :
    ∃ v : Int, jsParseIntStr (jsStringOfInt n) = some v ∧ v.natAbs ≤ 9 ∧
      (n < 0 → v ≤ 0) ∧ (0 ≤ n → 0 ≤ v) := by
  have hlt : ¬ n.natAbs < 10 ^ 21 := by omega
  rw [jsStringOfInt, if_neg hlt]
  have hsne : stripTrailingZeros (Nat.toDigits 10 n.natAbs) ≠ [] := by
    intro h0
    rw [stripTrailingZeros] at h0
    rw [List.reverse_eq_nil_iff] at h0
    have hall : ∀ c ∈ Nat.toDigits 10 n.natAbs, c = '0' := by
      intro c hc
      have := List.dropWhile_eq_nil_iff.mp h0 c (List.mem_reverse.mpr hc)
      simpa using this
    have hz := digitsToNat_all_zero _ hall
    rw [digitsToNat_toDigits] at hz
    omega
  obtain ⟨d0, rest, hsr⟩ := List.exists_cons_of_ne_nil hsne
  have hd0mem : d0 ∈ Nat.toDigits 10 n.natAbs := by
    have h1 : d0 ∈ stripTrailingZeros (Nat.toDigits 10 n.natAbs) := by
      rw [hsr]
      exact List.mem_cons_self d0 rest
    rw [stripTrailingZeros, List.mem_reverse] at h1
    exact List.mem_reverse.mp ((List.dropWhile_sublist _).mem h1)
  obtain ⟨hd0, hlo, hhi⟩ := toDigits_char_facts n.natAbs d0 hd0mem
  have hmant : ∃ t, expMantissa (Nat.toDigits 10 n.natAbs) ++
      'e' :: '+' :: Nat.toDigits 10 ((Nat.toDigits 10 n.natAbs).length - 1) =
        d0 :: t ∧ (d0 :: t).takeWhile Char.isDigit = [d0] := by
    rw [expMantissa, hsr]
    dsimp only
    by_cases hr : rest = []
    · rw [if_pos hr]
      refine ⟨'e' :: '+' :: Nat.toDigits 10 ((Nat.toDigits 10 n.natAbs).length - 1),
        by simp, ?_⟩
      rw [List.takeWhile_cons, if_pos hd0, List.takeWhile_cons, if_neg (by decide)]
    · rw [if_neg hr]
      refine ⟨'.' :: (rest ++ 'e' :: '+' ::
        Nat.toDigits 10 ((Nat.toDigits 10 n.natAbs).length - 1)), rfl, ?_⟩
      rw [List.takeWhile_cons, if_pos hd0, List.takeWhile_cons, if_neg (by decide)]
  obtain ⟨t, ht, htw⟩ := hmant
  have hval : digitsToNat [d0] ≤ 9 := by
    have : digitsToNat [d0] = d0.toNat - '0'.toNat := by
      rw [digitsToNat, List.foldl_cons, List.foldl_nil]
      omega
    rw [this]
    have h0 : '0'.toNat = 48 := by decide
    omega
  obtain ⟨hpos, hneg⟩ := jsParseIntStr_digit_head d0 t hd0 htw
  by_cases hn : n < 0
  · rw [if_pos hn, List.append_assoc, ht, List.cons_append, List.nil_append]
    refine ⟨-((digitsToNat [d0] : Nat) : Int), hneg, by omega, fun _ => by omega,
      fun h0 => absurd h0 (by omega)⟩
  · rw [if_neg hn, List.nil_append, ht]
    exact ⟨((digitsToNat [d0] : Nat) : Int), hpos, by omega,
      fun h0 => absurd h0 hn, fun _ => by omega⟩

/-- `parseInt` of an integral argument below 10^21 in magnitude is the
integer itself. -/
theorem jsParseIntArg_small (n : Int) (h : n.natAbs < 10 ^ 21) :
    jsParseIntArg (.num n) = some n := by
  show jsParseIntStr (jsStringOfInt n) = some n
  rw [jsStringOfInt, if_pos h]
  exact jsParseIntStr_intToStr n

/-- C10.  The claim asserts every integer `maxVideos` argument below 1
is treated as 1.  The argument `0` is falsy, so line 518 replaces it by
the string `'10'` before parsing: with a two-entry listing,
`maxVideos = 0` yields two records (the 10-clamped behaviour) while
`maxVideos = 1` yields one, so `0` is not treated as 1. -/
theorem C10_zeroMaxVideos_counterexample :
    clampMaxVideos (.num 0) = some 10 ∧
    (scrapeYouTubeChannelData fix2Oracle jsDateParseModel 0 "@c".data (.num 0)).map
      (fun s => s.videos.length) = .ok 2 ∧
    (scrapeYouTubeChannelData fix2Oracle jsDateParseModel 0 "@c".data (.num 1)).map
      (fun s => s.videos.length) = .ok 1 :=
  ⟨by decide, by with_unfolding_all rfl, by with_unfolding_all rfl⟩

/-- C10 (amended).  `scrapeYouTubeChannelData` never rejects a
`maxVideos` argument: an integer above 100 and below 10^21 clamps to
100, a nonzero integer below 1 clamps to 1, an integer of magnitude at
least 10^21 stringifies exponentially so `parseInt` reads only its
leading mantissa digit and the cap becomes that digit clamped into
1..9 — in particular 10^21 itself is treated as 1, not 100 — and falsy
arguments (`undefined`, `null`, `0`, the empty string) fall back to
10; an invalid-input error is raised only for the channel URL, never
on account of `maxVideos`. -/
theorem C10_maxVideosClamp_amended (n m p : Int) (hn : 100 < n)
    (hn21 : n < 10 ^ 21) (hm : m < 1) (hm0 : m ≠ 0) (hp : 10 ^ 21 ≤ p) :
    clampMaxVideos (.num n) = some 100 ∧
    clampMaxVideos (.num m) = some 1 ∧
    (∃ d, 1 ≤ d ∧ d ≤ 9 ∧ clampMaxVideos (.num p) = some d) ∧
    clampMaxVideos (.num (10 ^ 21)) = some 1 ∧
    clampMaxVideos .undef = some 10 ∧
    clampMaxVideos .jsnull = some 10 ∧
    clampMaxVideos (.num 0) = some 10 ∧
    clampMaxVideos (.str []) = some 10 ∧
    ∀ (o : Oracle) (parse : Str → Option Int) (now : Int) (url : Str) (arg : JSArg),
      extractHandle url ≠ none →
      scrapeYouTubeChannelData o parse now url arg ≠ .error .invalidUrl := by
  have hN : (10 : Nat) ^ 21 = 1000000000000000000000 := by norm_num
  have hZ : (10 : Int) ^ 21 = 1000000000000000000000 := by norm_num
  rw [hZ] at hn21 hp
  refine ⟨?_, ?_, ?_, by decide, by decide, by decide, by decide, by decide, ?_⟩
  · have hz : ¬jsArgFalsy (.num n) = true := by
      simp only [jsArgFalsy, decide_eq_true_eq]
      omega
    rw [clampMaxVideos]
    dsimp only
    rw [if_neg hz, jsParseIntArg_small n (by rw [hN]; omega), Option.map_some']
    have hmin : min 100 (max 1 n) = 100 := by omega
    rw [hmin]
  · have hz : ¬jsArgFalsy (.num m) = true := by
      simp only [jsArgFalsy, decide_eq_true_eq]
      omega
    rw [clampMaxVideos]
    dsimp only
    rw [if_neg hz]
    by_cases hbig : m.natAbs < 1000000000000000000000
    · rw [jsParseIntArg_small m (by rw [hN]; omega), Option.map_some']
      have hmin : min 100 (max 1 m) = 1 := by omega
      rw [hmin]
    · obtain ⟨v, hv, hva, hvneg, -⟩ := jsParseIntStr_big m (by rw [hN]; omega)
      have hv' : jsParseIntArg (.num m) = some v := hv
      rw [hv', Option.map_some']
      have hneg : v ≤ 0 := hvneg (by omega)
      have hmin : min 100 (max 1 v) = 1 := by omega
      rw [hmin]
  · obtain ⟨v, hv, hva, -, -⟩ := jsParseIntStr_big p (by rw [hN]; omega)
    have hz : ¬jsArgFalsy (.num p) = true := by
      simp only [jsArgFalsy, decide_eq_true_eq]
      omega
    refine ⟨min 100 (max 1 v), by omega, by omega, ?_⟩
    rw [clampMaxVideos]
    dsimp only
    rw [if_neg hz]
    have hv' : jsParseIntArg (.num p) = some v := hv
    rw [hv', Option.map_some']
  · intro o parse now url arg h hc
    exact h ((scrape_invalidUrl_iff o parse now url arg).mp hc)

/-- Witness for C10 (amended) at 500, −3, 10^21 and a concrete scrape. -/
theorem C10_maxVideosClamp_amended_witness :
    clampMaxVideos (.num 500) = some 100 ∧
    clampMaxVideos (.num (-3)) = some 1 ∧
    (∃ d, 1 ≤ d ∧ d ≤ 9 ∧ clampMaxVideos (.num (10 ^ 21)) = some d) ∧
    clampMaxVideos (.num (10 ^ 21)) = some 1 ∧
    clampMaxVideos .undef = some 10 ∧
    clampMaxVideos .jsnull = some 10 ∧
    clampMaxVideos (.num 0) = some 10 ∧
    clampMaxVideos (.str []) = some 10 ∧
    scrapeYouTubeChannelData fix2Oracle jsDateParseModel 0 "@c".data (.num 0) ≠
      .error .invalidUrl := by
  obtain ⟨a, b, c, d, e, f, g, h, i⟩ :=
    C10_maxVideosClamp_amended 500 (-3) (10 ^ 21) (by decide) (by decide)
      (by decide) (by decide) (by decide)
  exact ⟨a, b, c, d, e, f, g, h,
    i fix2Oracle jsDateParseModel 0 "@c".data (.num 0) (by decide)⟩

/-- C9.  The claim asserts exactly the URL forms
`https://www.youtube.com/@handle` and bare `@handle` are accepted.  The
extraction regex `/youtube\.com\/@(...)/i` searches anywhere in the
string, so `youtube.com/@x` — which is of neither claimed form — is
accepted with handle `x`, and the scrape proceeds past URL validation
(here up to the listing fetch, which this oracle fails with a network
error, a different error than invalid input). -/
theorem C9_urlForms_counterexample :
    extractHandle "youtube.com/@x".data = some "x".data ∧
    "https://www.youtube.com/@".data.isPrefixOf "youtube.com/@x".data = false ∧
    "@".data.isPrefixOf "youtube.com/@x".data = false ∧
    scrapeYouTubeChannelData emptyOracle jsDateParseModel 0 "youtube.com/@x".data
      (.num 1) = .error .network ∧
    ScrapeError.network ≠ ScrapeError.invalidUrl :=
  ⟨by decide, by decide, by decide, by with_unfolding_all rfl, by decide⟩

/-- C9 (amended).  URL validation accepts any string whose trimmed form
contains `youtube.com/@` (case-insensitively) followed by at least one
character other than `/?&#`, plus the bare `@handle` form; it rejects
everything else with the invalid-input error, before and independently
of any network request — for every oracle the scrape returns the
invalid-input error exactly on the rejected strings. -/
theorem C9_handleValidation_amended (o : Oracle) (parse : Str → Option Int)
    (now : Int) (url : Str) (arg : JSArg) :
    (scrapeYouTubeChannelData o parse now url arg = .error .invalidUrl ↔
      extractHandle url = none) ∧
    (extractHandle url = none →
      scrapeYouTubeChannelData o parse now url arg = .error .invalidUrl) ∧
    extractHandle "https://www.youtube.com/@veritasium".data = some "veritasium".data ∧
    extractHandle "@veritasium".data = some "veritasium".data ∧
    extractHandle "http://m.youtube.com/@x?t=1".data = some "x".data ∧
    extractHandle "not a channel".data = none :=
  ⟨scrape_invalidUrl_iff o parse now url arg,
   fun h => (scrape_invalidUrl_iff o parse now url arg).mpr h,
   by decide, by decide, by decide, by decide⟩

/-- Witness for C9 (amended) at a concrete oracle and URL. -/
theorem C9_handleValidation_amended_witness :
    (scrapeYouTubeChannelData emptyOracle jsDateParseModel 0 "no handle here".data
        (.num 1) = .error .invalidUrl ↔
      extractHandle "no handle here".data = none) ∧
    (extractHandle "no handle here".data = none →
      scrapeYouTubeChannelData emptyOracle jsDateParseModel 0 "no handle here".data
        (.num 1) = .error .invalidUrl) ∧
    extractHandle "https://www.youtube.com/@veritasium".data = some "veritasium".data ∧
    extractHandle "@veritasium".data = some "veritasium".data ∧
    extractHandle "http://m.youtube.com/@x?t=1".data = some "x".data ∧
    extractHandle "not a channel".data = none :=
  C9_handleValidation_amended emptyOracle jsDateParseModel 0 "no handle here".data
    (.num 1)

/-- A left fold by `max` lands in the seed-or-list. -/
theorem foldl_max_mem : ∀ (vs : List ℚ) (v : ℚ), vs.foldl max v ∈ v :: vs
  | [], v => by simp
  | w :: ws, v => by
    simp only [List.foldl_cons]
    have ih := foldl_max_mem ws (max v w)
    rcases List.mem_cons.mp ih with h | h
    · rcases max_choice v w with hc | hc
      · rw [h, hc]; exact List.mem_cons_self _ _
      · rw [h, hc]; exact List.mem_cons_of_mem _ (List.mem_cons_self _ _)
    · exact List.mem_cons_of_mem _ (List.mem_cons_of_mem _ h)

/-- A left fold by `max` bounds the seed and every element. -/
theorem foldl_max_le : ∀ (vs : List ℚ) (v w : ℚ), w ∈ v :: vs → w ≤ vs.foldl max v
  | [], v, w, h => by
    simp only [List.not_mem_nil, or_false, List.mem_cons] at h
    simp [h]
  | u :: us, v, w, h => by
    simp only [List.foldl_cons]
    rcases List.mem_cons.mp h with rfl | h2
    · exact le_trans (le_max_left w u)
        (foldl_max_le us _ _ (List.mem_cons_self _ _))
    · rcases List.mem_cons.mp h2 with rfl | h3
      · exact le_trans (le_max_right v w)
          (foldl_max_le us _ _ (List.mem_cons_self _ _))
      · exact foldl_max_le us (max v u) w (List.mem_cons_of_mem _ h3)

/-- C7.  The claim describes the gathered candidates as all strings
from the like-related UI containers (plus like-mentioning document
strings and `/like/i`-keyed values); the code additionally filters the
UI-container strings through `/\blikes?\b/i`.  On a document whose only
like datum is a bare `1.2K` top-level-button label, the claim's
gathering parses 1200 while the extractor returns null. -/
theorem C7_likeGathering_counterexample :
    likeCountFrom (some fixLikeButtonsTree) = none ∧
    specLikeCountFrom (some fixLikeButtonsTree) = some 1200 ∧
    collectStrings (likeTopLevelButtons (some fixLikeButtonsTree)) = ["1.2K".data] :=
  ⟨by with_unfolding_all rfl, by with_unfolding_all rfl, by with_unfolding_all rfl⟩

/-- C7 (amended).  The like-count extractor parses every gathered
candidate — the UI-container strings passing `/\blikes?\b/i`, the
document strings passing the same test, and all values under keys
matching `/like/i` — and returns the maximum of the successfully
parsed candidates, or null when none parses; on a fixture carrying the
count both as the label `1.2K` and as the raw value `1,243` it returns
1243. -/
theorem C7_likeMax_amended (d : Option JValue) :
    (likeCountFrom d = none ↔ likeParsedValues d = []) ∧
    (∀ q, likeCountFrom d = some q →
      q ∈ likeParsedValues d ∧ ∀ w ∈ likeParsedValues d, w ≤ q) ∧
    likeCountFrom (some fixLikeTree) = some 1243 := by
  refine ⟨?_, ?_, by with_unfolding_all rfl⟩
  · unfold likeCountFrom
    cases likeParsedValues d with
    | nil => simp
    | cons v vs => simp
  · intro q hq
    unfold likeCountFrom at hq
    cases hl : likeParsedValues d with
    | nil => rw [hl] at hq; exact absurd hq (by simp)
    | cons v vs =>
      rw [hl] at hq
      have hv : vs.foldl max v = q := Option.some.inj hq
      constructor
      · rw [← hv]
        exact foldl_max_mem vs v
      · intro w hw
        rw [← hv]
        exact foldl_max_le vs v w hw

/-- Witness for C7 (amended) at the two-rendering fixture. -/
theorem C7_likeMax_amended_witness :
    (likeCountFrom (some fixLikeTree) = none ↔
      likeParsedValues (some fixLikeTree) = []) ∧
    (∀ q, likeCountFrom (some fixLikeTree) = some q →
      q ∈ likeParsedValues (some fixLikeTree) ∧
      ∀ w ∈ likeParsedValues (some fixLikeTree), w ≤ q) ∧
    likeCountFrom (some fixLikeTree) = some 1243 :=
  C7_likeMax_amended (some fixLikeTree)

theorem jsNumberCore_nonneg (t : Str) (q : ℚ) (h : jsNumberCore t = some q) : 0 ≤ q := by
  unfold jsNumberCore at h
  dsimp only at h
  split at h
  · split at h
    · exact absurd h (by simp)
    · have := Option.some.inj h
      rw [← this]
      positivity
  · split at h
    · have := Option.some.inj h
      rw [← this]
      positivity
    · exact absurd h (by simp)
  · exact absurd h (by simp)

theorem jsNumberFull_nonneg (s : Str) (q : ℚ)
    (hd : ∀ c ∈ s, c.isDigit ∨ c = '.') (h : jsNumberFull s = some q) : 0 ≤ q := by
  unfold jsNumberFull at h
  dsimp only at h
  have hall : ∀ c ∈ jsTrim s, c.isDigit ∨ c = '.' :=
    fun c hc => hd c (mem_jsTrim c s hc)
  split at h
  · have := Option.some.inj h
    rw [← this]
  · next r heq =>
    exfalso
    have : '-' ∈ jsTrim s := by rw [heq]; exact List.mem_cons_self _ _
    rcases hall '-' this with hdig | hdot
    · exact absurd hdig (by decide)
    · exact absurd hdot (by decide)
  · next r heq =>
    exfalso
    have : '+' ∈ jsTrim s := by rw [heq]; exact List.mem_cons_self _ _
    rcases hall '+' this with hdig | hdot
    · exact absurd hdig (by decide)
    · exact absurd hdot (by decide)
  · exact jsNumberCore_nonneg _ _ h

theorem findSuffixMatch_chars (l : Str) (run : Str) (k : Char)
    (h : findSuffixMatch l = some (run, k)) : ∀ c ∈ run, isNumChar c := by
  induction l with
  | nil => exact absurd h (by simp [findSuffixMatch])
  | cons c rest ih =>
    rw [findSuffixMatch] at h
    split at h
    · split at h
      · split at h
        · have h2 := Option.some.inj h
          have hrun : List.takeWhile isNumChar (c :: rest) = run :=
            congrArg Prod.fst h2
          intro x hx
          rw [← hrun] at hx
          exact List.mem_takeWhile_imp hx
        · exact ih h
      · exact ih h
    · exact ih h

theorem findNumRun_chars (l : Str) (run : Str)
    (h : findNumRun l = some run) : ∀ c ∈ run, isNumChar c := by
  induction l with
  | nil => exact absurd h (by simp [findNumRun])
  | cons c rest ih =>
    rw [findNumRun] at h
    split at h
    · have := Option.some.inj h
      intro x hx
      rw [← this] at hx
      exact List.mem_takeWhile_imp hx
    · exact ih h

theorem suffixMul_pos (k : Char) : 0 < suffixMul k := by
  unfold suffixMul
  split
  · norm_num
  · split
    · norm_num
    · norm_num

theorem jsRound_nonneg (x : ℚ) (h : 0 ≤ x) : (0 : ℚ) ≤ ((jsRound x : Int) : ℚ) := by
  unfold jsRound
  have : (0 : Int) ≤ ⌊x + 1/2⌋ := by
    rw [Int.le_floor]
    push_cast
    linarith
  exact_mod_cast this

theorem parseCountText_nonneg (x : Option JValue) (q : ℚ)
    (h : parseCountText x = some q) : 0 ≤ q := by
  unfold parseCountText at h
  split at h
  · exact absurd h (by simp)
  · exact absurd h (by simp)
  · dsimp only at h
    split at h
    · exact absurd h (by simp)
    · split at h
      · next run k hsuf =>
        split at h
        · exact absurd h (by simp)
        · next base hbase =>
          have hchars : ∀ c ∈ run.filter (· ≠ ','), c.isDigit ∨ c = '.' := by
            intro c hc
            have h1 := (List.mem_filter.mp hc).1
            have h2 := (List.mem_filter.mp hc).2
            have h3 := findSuffixMatch_chars _ _ _ hsuf c h1
            unfold isNumChar at h3
            simp only [decide_eq_true_eq, Bool.or_eq_true] at h3
            rcases h3 with h3 | h3 | h3
            · exact Or.inl h3
            · exact absurd h3 (by simpa using h2)
            · exact Or.inr h3
          have hb : 0 ≤ base := jsNumberFull_nonneg _ _ hchars hbase
          have := Option.some.inj h
          rw [← this]
          exact jsRound_nonneg _ (mul_nonneg hb (le_of_lt (suffixMul_pos k)))
      · split at h
        · exact absurd h (by simp)
        · next run hrun =>
          have hchars : ∀ c ∈ run.filter (· ≠ ','), c.isDigit ∨ c = '.' := by
            intro c hc
            have h1 := (List.mem_filter.mp hc).1
            have h2 := (List.mem_filter.mp hc).2
            have h3 := findNumRun_chars _ _ hrun c h1
            unfold isNumChar at h3
            simp only [decide_eq_true_eq, Bool.or_eq_true] at h3
            rcases h3 with h3 | h3 | h3
            · exact Or.inl h3
            · exact absurd h3 (by simpa using h2)
            · exact Or.inr h3
          exact jsNumberFull_nonneg _ _ hchars h

theorem parseCommentsNumber_pos (x : Option JValue) (q : ℚ)
    (h : parseCommentsNumber x = some q) : 0 < q := by
  unfold parseCommentsNumber at h
  split at h
  · exact absurd h (by simp)
  · split at h
    · exact absurd h (by simp)
    · split at h
      · exact absurd h (by simp)
      · dsimp only at h
        split at h
        · next hpos => rw [← Option.some.inj h]; exact hpos
        · exact absurd h (by simp)

theorem tokenNeighborsLoop_pos (l : List Str) (prev : Str) (q : ℚ)
    (h : tokenNeighborsLoop prev l = some q) : 0 < q := by
  induction l generalizing prev with
  | nil => exact absurd h (by simp [tokenNeighborsLoop])
  | cons t rest ih =>
    rw [tokenNeighborsLoop] at h
    split at h
    · split at h
      · next hc =>
        rw [← Option.some.inj h]
        exact hc.1
      · exact ih _ h
    · exact ih _ h

theorem fromTokenNeighbors_pos (l : List Str) (q : ℚ)
    (h : fromTokenNeighbors l = some q) : 0 < q :=
  tokenNeighborsLoop_pos _ _ _ h

theorem firstCommentsNumber_pos (l : List Str) (q : ℚ)
    (h : firstCommentsNumber l = some q) : 0 < q := by
  induction l with
  | nil => exact absurd h (by simp [firstCommentsNumber])
  | cons s rest ih =>
    rw [firstCommentsNumber] at h
    split at h
    · next n hn =>
      rw [← Option.some.inj h]
      exact parseCommentsNumber_pos _ _ hn
    · exact ih h

theorem commentProbe_pos (parts : List Str) (q : ℚ)
    (h : commentProbe parts = some q) : 0 < q := by
  unfold commentProbe at h
  split at h
  · next n hn =>
    rw [← Option.some.inj h]
    exact parseCommentsNumber_pos _ _ hn
  · exact fromTokenNeighbors_pos _ _ h

theorem commentProbeList_pos (ps : List JValue) (q : ℚ)
    (h : commentProbeList ps = some q) : 0 < q := by
  induction ps with
  | nil => exact absurd h (by simp [commentProbeList])
  | cons p rest ih =>
    rw [commentProbeList] at h
    split at h
    · next n hn =>
      rw [← Option.some.inj h]
      exact commentProbe_pos _ _ hn
    · exact ih h

theorem extractCommentCountFound_pos (v : JValue) (q : ℚ)
    (h : (extractCommentCountFound v).count = some q) : 0 < q := by
  unfold extractCommentCountFound at h
  split at h
  · next n hn =>
    rw [← Option.some.inj h]
    exact commentProbeList_pos _ _ hn
  · split at h
    · next n hn =>
      rw [← Option.some.inj h]
      exact commentProbeList_pos _ _ hn
    · dsimp only at h
      split at h
      · next n hn =>
        rw [← Option.some.inj h]
        exact firstCommentsNumber_pos _ _ hn
      · split at h
        · next n hn =>
          rw [← Option.some.inj h]
          exact fromTokenNeighbors_pos _ _ hn
        · exact absurd h (by simp)

theorem extractCommentCount_pos (d : Option JValue) (q : ℚ)
    (h : (extractCommentCount d).count = some q) : 0 < q := by
  unfold extractCommentCount at h
  split at h
  · split at h
    · exact extractCommentCountFound_pos _ _ h
    · exact extractCommentCountFound_pos _ _ h
    · exact absurd h (by simp)
  · exact absurd h (by simp)

theorem fetchCommentCountViaInnertube_pos (o : Oracle) (html videoId : Str) (q : ℚ)
    (h : (fetchCommentCountViaInnertube o html videoId).count = some q) : 0 < q := by
  unfold fetchCommentCountViaInnertube at h
  dsimp only at h
  split at h
  · split at h
    · exact absurd h (by simp)
    · split at h
      · next n hn =>
        rw [← Option.some.inj h]
        exact extractCommentCount_pos _ _ hn
      · split at h
        · next n hn =>
          rw [← Option.some.inj h]
          exact firstCommentsNumber_pos _ _ hn
        · exact absurd h (by simp)
  · exact absurd h (by simp)

theorem detailComment0_pos (initialData : Option JValue) (q : ℚ)
    (h : (detailComment0 initialData).count = some q) : 0 < q := by
  unfold detailComment0 at h
  split at h
  · exact extractCommentCount_pos _ _ h
  · exact absurd h (by simp)

theorem detailCommentHtmlFallback_pos (html : Str) (q : ℚ)
    (h : detailCommentHtmlFallback html = some q) : 0 < q := by
  unfold detailCommentHtmlFallback at h
  split at h
  · next n hn =>
    rw [← Option.some.inj h]
    exact parseCommentsNumber_pos _ _ hn
  · exact parseCommentsNumber_pos _ _ h

theorem detailComment1_pos (html : Str) (initialData : Option JValue) (q : ℚ)
    (h : (detailComment1 html initialData).count = some q) : 0 < q := by
  unfold detailComment1 at h
  split at h
  · split at h
    · next n hn =>
      rw [← Option.some.inj h]
      exact detailCommentHtmlFallback_pos _ _ hn
    · exact detailComment0_pos _ _ h
  · exact detailComment0_pos _ _ h

theorem detailCommentResult_pos (o : Oracle) (html videoId : Str)
    (initialData : Option JValue) (q : ℚ)
    (h : (detailCommentResult o html videoId initialData).count = some q) : 0 < q := by
  unfold detailCommentResult at h
  split at h
  · dsimp only at h
    split at h
    · exact fetchCommentCountViaInnertube_pos _ _ _ _ h
    · exact detailComment1_pos _ _ _ h
  · exact detailComment1_pos _ _ _ h

theorem detailViewCount_nonneg (details initialData : Option JValue) (q : ℚ)
    (h : detailViewCount details initialData = some q) : 0 ≤ q := by
  unfold detailViewCount at h
  dsimp only at h
  split at h
  · exact parseCountText_nonneg _ _ h
  · exact parseCountText_nonneg _ _ h

theorem likeCountFrom_nonneg (d : Option JValue) (q : ℚ)
    (h : likeCountFrom d = some q) : 0 ≤ q := by
  unfold likeCountFrom at h
  split at h
  · exact absurd h (by simp)
  · next v vs hvs =>
    have hmem : q ∈ v :: vs := by
      rw [← Option.some.inj h]
      exact foldl_max_mem vs v
    rw [← hvs] at hmem
    have := (List.mem_filter.mp hmem).2
    simpa using this

theorem fetchVideoDetailsCore_viewCount (o : Oracle) (parse : Str → Option Int)
    (videoId html : Str) (pd : JValue) (idt : Option JValue) :
    (fetchVideoDetailsCore o parse videoId html pd idt).viewCount =
      detailViewCount (keepTruthy (jGet pd "videoDetails".data)) idt := rfl

theorem fetchVideoDetailsCore_likeCount (o : Oracle) (parse : Str → Option Int)
    (videoId html : Str) (pd : JValue) (idt : Option JValue) :
    (fetchVideoDetailsCore o parse videoId html pd idt).likeCount =
      likeCountFrom idt := rfl

theorem fetchVideoDetailsCore_commentCount (o : Oracle) (parse : Str → Option Int)
    (videoId html : Str) (pd : JValue) (idt : Option JValue) :
    (fetchVideoDetailsCore o parse videoId html pd idt).commentCount =
      (detailCommentResult o html videoId idt).count := rfl

theorem fetchVideoDetailsCore_releaseDate (o : Oracle) (parse : Str → Option Int)
    (videoId html : Str) (pd : JValue) (idt : Option JValue) :
    ∃ x, (fetchVideoDetailsCore o parse videoId html pd idt).releaseDate =
      normalizeIsoDate parse x := ⟨_, rfl⟩

theorem fetchVideoDetails_ok (o : Oracle) (parse : Str → Option Int)
    (videoId : Str) (d : VideoDetail)
    (h : fetchVideoDetails o parse videoId = .ok d) :
    ∃ html pd idt, d = fetchVideoDetailsCore o parse videoId html pd idt := by
  unfold fetchVideoDetails at h
  cases hf : o.fetchHtml ("https://www.youtube.com/watch?v=".data ++ videoId) with
  | error e => rw [hf] at h; simp at h
  | ok html =>
    rw [hf] at h
    simp only [except_mapError_ok, except_bind_ok] at h
    cases hp : extractJsonByMarkers html playerMarkers with
    | none => rw [hp] at h; simp at h
    | some pjs =>
      rw [hp] at h
      dsimp only at h
      cases hj : o.jsonParse pjs with
      | none => rw [hj] at h; simp at h
      | some pd =>
        rw [hj] at h
        dsimp only at h
        cases hi : extractJsonByMarkers html initialDataMarkers with
        | none =>
          rw [hi] at h
          simp only [except_pure_eq_ok, except_bind_ok] at h
          exact ⟨html, pd, none, (Except.ok.inj h).symm⟩
        | some ids =>
          rw [hi] at h
          dsimp only at h
          cases hj2 : o.jsonParse ids with
          | none => rw [hj2] at h; simp at h
          | some idt =>
            rw [hj2] at h
            simp only [except_pure_eq_ok, except_bind_ok] at h
            exact ⟨html, pd, some idt, (Except.ok.inj h).symm⟩

theorem stubOfRenderer_viewCount_nonneg (vr : JValue) (q : ℚ)
    (h : (stubOfRenderer vr).viewCount = some q) : 0 ≤ q := by
  unfold stubOfRenderer at h
  dsimp only at h
  exact parseCountText_nonneg _ _ h

theorem buildRecord_counts (o : Oracle) (parse : Str → Option Int) (now : Int)
    (v : VideoStub) (hv : ∀ q, v.viewCount = some q → 0 ≤ q) :
    0 ≤ (buildRecord o parse now v).viewCount ∧
    (∀ q, (buildRecord o parse now v).likeCount = some q → 0 ≤ q) ∧
    (∀ q, (buildRecord o parse now v).commentCount = some q → 0 < q) := by
  unfold buildRecord
  dsimp only
  cases hd : fetchVideoDetails o parse (jsToStringV v.videoId) with
  | error e =>
    dsimp only
    refine ⟨?_, ?_, ?_⟩
    · cases hvv : v.viewCount with
      | none => simp
      | some q => simpa using hv q hvv
    · intro q hq
      exact absurd hq (by simp)
    · intro q hq
      exact absurd hq (by simp)
  | ok detail =>
    obtain ⟨html, pd, idt, rfl⟩ := fetchVideoDetails_ok o parse _ detail hd
    dsimp only
    refine ⟨?_, ?_, ?_⟩
    · rw [fetchVideoDetailsCore_viewCount]
      cases hvc : detailViewCount (keepTruthy (jGet pd "videoDetails".data)) idt with
      | some q =>
        simpa using detailViewCount_nonneg _ _ _ hvc
      | none =>
        cases hvv : v.viewCount with
        | none => simp
        | some q => simpa using hv q hvv
    · intro q hq
      rw [fetchVideoDetailsCore_likeCount] at hq
      exact likeCountFrom_nonneg _ _ hq
    · intro q hq
      rw [fetchVideoDetailsCore_commentCount] at hq
      exact detailCommentResult_pos _ _ _ _ _ hq

theorem scrapeStubs_ok_stubOf (o : Oracle) (url : Str) (arg : JSArg)
    (meta : ChannelMeta) (top : List VideoStub)
    (h : scrapeStubs o url arg = .ok (meta, top)) :
    ∀ v ∈ top, ∃ vr, v = stubOfRenderer vr := by
  unfold scrapeStubs at h
  cases hh : extractHandle url with
  | none => rw [hh] at h; simp at h
  | some handle =>
    rw [hh] at h
    dsimp only at h
    cases hf : o.fetchHtml ("https://www.youtube.com/@".data ++ handle ++ "/videos".data) with
    | error e => rw [hf] at h; simp at h
    | ok html =>
      rw [hf] at h
      simp only [except_mapError_ok, except_bind_ok] at h
      cases hx : extractJsonByMarkers html initialDataMarkers with
      | none => rw [hx] at h; simp at h
      | some raw =>
        rw [hx] at h
        dsimp only at h
        cases hj : o.jsonParse raw with
        | none => rw [hj] at h; simp at h
        | some data =>
          rw [hj] at h
          dsimp only at h
          cases ht : pickVideosTab (some data) with
          | none => rw [ht] at h; simp at h
          | some tab =>
            rw [ht] at h
            dsimp only at h
            split at h
            · simp at h
            · simp only [except_pure_eq_ok] at h
              have h2 := Except.ok.inj h
              have htop : top = (((collectVideoRenderers tab).take
                  (match clampMaxVideos arg with
                   | some n => n.toNat
                   | none => 0)).map stubOfRenderer).filter
                  (fun v => jTruthyV v.videoId) := (congrArg Prod.snd h2).symm
              intro v hvmem
              rw [htop] at hvmem
              have h3 := List.mem_filter.mp hvmem
              obtain ⟨vr, _, hvr⟩ := List.mem_map.mp h3.1
              exact ⟨vr, hvr.symm⟩

theorem scrape_ok_videos (o : Oracle) (parse : Str → Option Int) (now : Int)
    (url : Str) (arg : JSArg) (snap : ChannelSnapshot)
    (h : scrapeYouTubeChannelData o parse now url arg = .ok snap) :
    ∃ meta top, scrapeStubs o url arg = .ok (meta, top) ∧
      snap.videos = top.map (buildRecord o parse now) := by
  unfold scrapeYouTubeChannelData at h
  cases hs : scrapeStubs o url arg with
  | error e => rw [hs] at h; simp at h
  | ok p =>
    obtain ⟨meta, top⟩ := p
    rw [hs] at h
    simp only [except_bind_ok] at h
    split at h
    · simp at h
    · simp only [except_pure_eq_ok] at h
      have h2 := Except.ok.inj h
      exact ⟨meta, top, rfl, by rw [← h2]⟩

/-- C2.  The claim asserts the core preserves the null/0 distinction:
a count that could not be extracted is stored as null.  Under an
oracle whose watch page carries no metadata, the detail fetch succeeds
with `viewCount = null` and the stub's `viewCount` is also null, yet
the emitted record stores `viewCount = 0` (line 570's
`detail.viewCount ?? v.viewCount ?? 0`): null is collapsed to 0 inside
the core.  Dually, a genuinely-zero extracted count is reported as
null: `parseCommentsNumber` matches the numeral of `0 comments` but
returns null because of its `n > 0` guard (line 73). -/
theorem C2_nullCollapse_counterexample :
    (fetchVideoDetails fixOracle jsDateParseModel "ab".data).map
      (fun d => d.viewCount) = .ok none ∧
    (scrapeStubs fixOracle "@c".data (.num 1)).map
      (fun p => p.2.map (fun v => v.viewCount)) = .ok [none] ∧
    (scrapeYouTubeChannelData fixOracle jsDateParseModel 0 "@c".data (.num 1)).map
      (fun s => s.videos.map (fun r => r.viewCount)) = .ok [0] ∧
    parseCommentsNumber (some (.jstr "0 comments".data)) = none ∧
    findCommentsMatch "0 comments".data = some ['0'] :=
  ⟨by with_unfolding_all rfl, by with_unfolding_all rfl, by with_unfolding_all rfl,
   by with_unfolding_all rfl, by decide⟩

/-- C2 (amended).  In every snapshot, `viewCount` is a non-negative
number and never null (0 is substituted when nothing was extracted),
`likeCount` is null or non-negative, and `commentCount` is null or
strictly positive (zero comment counts are reported as null); counts
may be non-integral in corner cases (see C8). -/
theorem C2_countInvariants_amended (o : Oracle) (parse : Str → Option Int)
    (now : Int) (url : Str) (arg : JSArg) (snap : ChannelSnapshot)
    (h : scrapeYouTubeChannelData o parse now url arg = .ok snap) :
    ∀ r ∈ snap.videos,
      0 ≤ r.viewCount ∧
      (∀ q, r.likeCount = some q → 0 ≤ q) ∧
      (∀ q, r.commentCount = some q → 0 < q) := by
  intro r hr
  obtain ⟨meta, top, hs, hv⟩ := scrape_ok_videos o parse now url arg snap h
  rw [hv] at hr
  obtain ⟨v, hvmem, rfl⟩ := List.mem_map.mp hr
  obtain ⟨vr, rfl⟩ := scrapeStubs_ok_stubOf o url arg meta top hs v hvmem
  exact buildRecord_counts o parse now _ (stubOfRenderer_viewCount_nonneg vr)

/-- Witness for C2 (amended) at the concrete fixture snapshot. -/
theorem C2_countInvariants_amended_witness :
    scrapeYouTubeChannelData fixOracle jsDateParseModel 0 "@c".data (.num 1) =
      .ok fixSnapshot ∧
    (0 ≤ fixVideoRecord.viewCount ∧
      (∀ q, fixVideoRecord.likeCount = some q → 0 ≤ q) ∧
      (∀ q, fixVideoRecord.commentCount = some q → 0 < q)) := by
  have hok : scrapeYouTubeChannelData fixOracle jsDateParseModel 0 "@c".data
      (.num 1) = .ok fixSnapshot := by with_unfolding_all rfl
  exact ⟨hok, C2_countInvariants_amended fixOracle jsDateParseModel 0 "@c".data
    (.num 1) fixSnapshot hok fixVideoRecord (List.mem_singleton.mpr rfl)⟩

/-- C3.  The claim asserts a video whose detail fetch throws still
appears with stub-derived title and videoId intact and all detail-only
fields null.  The record survives with title and id intact and
transcript, likeCount and commentCount null — but the detail-only
`description` field is the empty string (line 587), not null. -/
theorem C3_descriptionNotNull_counterexample :
    fetchVideoDetails fixFailOracle jsDateParseModel "ab".data = .error () ∧
    scrapeYouTubeChannelData fixFailOracle jsDateParseModel 0 "@c".data (.num 1) =
      .ok fixSnapshot ∧
    fixVideoRecord.title = "T1".data ∧
    fixVideoRecord.videoId = .jstr "ab".data ∧
    fixVideoRecord.transcript = none ∧
    fixVideoRecord.likeCount = none ∧
    fixVideoRecord.commentCount = none ∧
    fixVideoRecord.description = .jstr [] ∧
    JValue.jstr [] ≠ JValue.jnull :=
  ⟨by with_unfolding_all rfl, by with_unfolding_all rfl, rfl, rfl, rfl, rfl, rfl,
   rfl, fun h => JValue.noConfusion h⟩

/-- C3 (amended).  For every stub whose detail fetch throws, the
aggregator still emits a record at the stub's position, with the
stub-derived title and videoId intact, transcript, likeCount and
commentCount null, description the empty string, and duration,
releaseDate and viewCount taking their stub-derived fallbacks
(0/null defaults); the per-video failure never propagates — the whole
scrape still succeeds. -/
theorem C3_perVideoFailure_amended (o : Oracle) (parse : Str → Option Int)
    (now : Int) (url : Str) (arg : JSArg) (meta : ChannelMeta)
    (top : List VideoStub) (i : Nat) (v : VideoStub)
    (hs : scrapeStubs o url arg = .ok (meta, top))
    (hv : top.get? i = some v)
    (hf : fetchVideoDetails o parse (jsToStringV v.videoId) = .error ()) :
    scrapeYouTubeChannelData o parse now url arg =
      .ok { channelId := meta.channelId, channelTitle := meta.channelTitle,
            videos := top.map (buildRecord o parse now) } ∧
    (top.map (buildRecord o parse now)).get? i = some
      { videoId := v.videoId,
        title := v.title,
        description := .jstr [],
        transcript := none,
        duration :=
          (match parseDurationTextSeconds v.durationText with
           | some q => q
           | none => 0),
        releaseDate :=
          (match backwardInductionDate v.relativePublished now with
           | some ms => normalizeIsoDate parse (some (.jstr (isoStringOfMs ms)))
           | none => none),
        viewCount := (match v.viewCount with | some q => q | none => 0),
        likeCount := none,
        commentCount := none,
        videoUrl := "https://www.youtube.com/watch?v=".data ++ jsToStringV v.videoId,
        thumbnail := "https://i.ytimg.com/vi/".data ++ jsToStringV v.videoId ++
          "/hqdefault.jpg".data } := by
  have hb : buildRecord o parse now v =
      { videoId := v.videoId,
        title := v.title,
        description := .jstr [],
        transcript := none,
        duration :=
          (match parseDurationTextSeconds v.durationText with
           | some q => q
           | none => 0),
        releaseDate :=
          (match backwardInductionDate v.relativePublished now with
           | some ms => normalizeIsoDate parse (some (.jstr (isoStringOfMs ms)))
           | none => none),
        viewCount := (match v.viewCount with | some q => q | none => 0),
        likeCount := none,
        commentCount := none,
        videoUrl := "https://www.youtube.com/watch?v=".data ++ jsToStringV v.videoId,
        thumbnail := "https://i.ytimg.com/vi/".data ++ jsToStringV v.videoId ++
          "/hqdefault.jpg".data } := by
    unfold buildRecord
    dsimp only
    rw [hf]
  constructor
  · unfold scrapeYouTubeChannelData
    rw [hs]
    simp only [except_bind_ok]
    have hne : ¬(top.map (buildRecord o parse now)).isEmpty = true := by
      cases top with
      | nil => exact absurd hv (by simp)
      | cons a as => simp [List.isEmpty]
    rw [if_neg hne]
    rfl
  · rw [List.get?_map, hv]
    simp only [Option.map_some']
    rw [hb]

/-- Witness for C3 (amended) at the failing-watch fixture. -/
theorem C3_perVideoFailure_amended_witness :
    scrapeYouTubeChannelData fixFailOracle jsDateParseModel 0 "@c".data (.num 1) =
      .ok { channelId := fixMeta.channelId, channelTitle := fixMeta.channelTitle,
            videos := [fixStub].map (buildRecord fixFailOracle jsDateParseModel 0) } ∧
    ([fixStub].map (buildRecord fixFailOracle jsDateParseModel 0)).get? 0 = some
      { videoId := fixStub.videoId,
        title := fixStub.title,
        description := .jstr [],
        transcript := none,
        duration :=
          (match parseDurationTextSeconds fixStub.durationText with
           | some q => q
           | none => 0),
        releaseDate :=
          (match backwardInductionDate fixStub.relativePublished 0 with
           | some ms => normalizeIsoDate jsDateParseModel (some (.jstr (isoStringOfMs ms)))
           | none => none),
        viewCount := (match fixStub.viewCount with | some q => q | none => 0),
        likeCount := none,
        commentCount := none,
        videoUrl := "https://www.youtube.com/watch?v=".data ++ jsToStringV fixStub.videoId,
        thumbnail := "https://i.ytimg.com/vi/".data ++ jsToStringV fixStub.videoId ++
          "/hqdefault.jpg".data } :=
  C3_perVideoFailure_amended fixFailOracle jsDateParseModel 0 "@c".data (.num 1)
    fixMeta [fixStub] 0 fixStub (by with_unfolding_all rfl) (by rfl)
    (by with_unfolding_all rfl)

theorem normalizeIsoDate_shape (parse : Str → Option Int) (x : Option JValue)
    (s : Str) (h : normalizeIsoDate parse x = some s) :
    ∃ day, s = isoStringOfDay day := by
  unfold normalizeIsoDate at h
  split at h
  · split at h
    · exact absurd h (by simp)
    · dsimp only at h
      split at h
      · exact absurd h (by simp)
      · split at h
        · exact absurd h (by simp)
        · next ms hms =>
          exact ⟨ms.ediv msPerDay, (Option.some.inj h).symm⟩
  · exact absurd h (by simp)

theorem agoTest_isoStringOfDay (day : Int) :
    agoRegexTest (isoStringOfDay day) = false := by
  unfold agoRegexTest isoStringOfDay
  rw [lowerStr, List.map_append, List.isSuffixOf, List.reverse_append]
  have h1 : (List.map jsToLowerChar "T00:00:00.000Z".data).reverse =
      'z' :: "000.00:00:00t".data := by decide
  rw [h1]
  rfl

theorem buildRecord_releaseDate (o : Oracle) (parse : Str → Option Int)
    (now : Int) (v : VideoStub) :
    (buildRecord o parse now v).releaseDate = none ∨
    ∃ day, (buildRecord o parse now v).releaseDate = some (isoStringOfDay day) := by
  unfold buildRecord
  dsimp only
  cases hd : fetchVideoDetails o parse (jsToStringV v.videoId) with
  | error e =>
    dsimp only
    cases hb : backwardInductionDate v.relativePublished now with
    | none => left; rfl
    | some ms =>
      cases hn : normalizeIsoDate parse (some (.jstr (isoStringOfMs ms))) with
      | none => left; dsimp only; rw [hn]
      | some s =>
        right
        obtain ⟨day, hday⟩ := normalizeIsoDate_shape parse _ s hn
        refine ⟨day, ?_⟩
        dsimp only
        rw [hn, hday]
  | ok detail =>
    obtain ⟨html, pd, idt, rfl⟩ := fetchVideoDetails_ok o parse _ detail hd
    dsimp only
    obtain ⟨x, hx⟩ := fetchVideoDetailsCore_releaseDate o parse (jsToStringV v.videoId) html pd idt
    cases hrel : (fetchVideoDetailsCore o parse (jsToStringV v.videoId) html pd idt).releaseDate with
    | some s =>
      right
      rw [hrel] at hx
      obtain ⟨day, hday⟩ := normalizeIsoDate_shape parse _ s hx.symm
      exact ⟨day, by rw [hday]⟩
    | none =>
      dsimp only
      cases hb : backwardInductionDate v.relativePublished now with
      | none => left; rfl
      | some ms =>
        cases hn : normalizeIsoDate parse (some (.jstr (isoStringOfMs ms))) with
        | none => left; dsimp only; rw [if_pos rfl]; dsimp only; rw [hn]
        | some s =>
          right
          obtain ⟨day, hday⟩ := normalizeIsoDate_shape parse _ s hn
          refine ⟨day, ?_⟩
          dsimp only
          rw [if_pos rfl]
          dsimp only
          rw [hn, hday]

/-- C6: in every snapshot produced by scrapeYouTubeChannelData, each VideoRecord's
releaseDate is either none (null) or an ISO-8601 timestamp string
YYYY-MM-DDT00:00:00.000Z for some civil day, on which the case-insensitive
regex test /ago$/i is false: a relative phrase such as "3 years ago" is never
stored, only normalized or discarded. -/
theorem C6_releaseDateNeverRelative (o : Oracle) (parse : Str → Option Int)
    (now : Int) (url : Str) (arg : JSArg) (snap : ChannelSnapshot)
    (h : scrapeYouTubeChannelData o parse now url arg = .ok snap) :
    ∀ r ∈ snap.videos, r.releaseDate = none ∨
      ∃ day, r.releaseDate = some (isoStringOfDay day) ∧
        agoRegexTest (isoStringOfDay day) = false := by
  intro r hr
  obtain ⟨meta, top, hs, hv⟩ := scrape_ok_videos o parse now url arg snap h
  rw [hv] at hr
  obtain ⟨v, hvmem, rfl⟩ := List.mem_map.mp hr
  rcases buildRecord_releaseDate o parse now v with hn | ⟨day, hday⟩
  · exact Or.inl hn
  · exact Or.inr ⟨day, hday, agoTest_isoStringOfDay day⟩

/-- Witness: the fixture snapshot's single record satisfies the C6 invariant. -/
theorem C6_releaseDateNeverRelative_witness :
    fixVideoRecord.releaseDate = none ∨
      ∃ day, fixVideoRecord.releaseDate = some (isoStringOfDay day) ∧
        agoRegexTest (isoStringOfDay day) = false :=
  C6_releaseDateNeverRelative fixOracle jsDateParseModel 0 "@c".data (.num 1)
    fixSnapshot (by with_unfolding_all rfl) fixVideoRecord
    (List.mem_singleton.mpr rfl)

theorem scanFrom_cons (st : Int × Bool × Bool) (c : Char) (rest : Str) :
    scanFrom st (c :: rest) =
      if retCondB st c then some 1
      else (scanFrom (jsonStep st c) rest).map (· + 1) := by
  obtain ⟨d, is, esc⟩ := st
  cases is <;> cases esc <;>
    by_cases hb : c = '\\' <;> by_cases hq : c = '"' <;>
    by_cases ho : c = '\x7b' <;> by_cases hc : c = '\x7d' <;>
    by_cases hd : d = 1 <;>
    simp_all [scanFrom, jsonStep, retCondB] <;> omega

theorem scanFrom_eq_none (l : Str) : ∀ st, scanFrom st l = none ↔ noRet st l = true := by
  induction l with
  | nil => intro st; simp [scanFrom, noRet]
  | cons c rest ih =>
    intro st
    rw [scanFrom_cons, noRet]
    by_cases hr : retCondB st c = true
    · simp [hr]
    · simp only [Bool.not_eq_true] at hr
      simp [hr, Option.map_eq_none, ih]

theorem scanFrom_eq_some (l : Str) : ∀ st n, scanFrom st l = some n ↔
    ∃ a c b, l = a ++ c :: b ∧ n = a.length + 1 ∧ noRet st a = true ∧
      retCondB (a.foldl jsonStep st) c = true := by
  induction l with
  | nil =>
    intro st n
    constructor
    · intro h
      exact absurd h (by simp [scanFrom])
    · rintro ⟨a, c, b, h, -⟩
      exact absurd (List.append_eq_nil.mp h.symm).2 (List.cons_ne_nil c b)
  | cons c0 rest ih =>
    intro st n
    rw [scanFrom_cons]
    by_cases hr : retCondB st c0 = true
    · rw [if_pos hr]
      constructor
      · intro h
        exact ⟨[], c0, rest, rfl, (Option.some.inj h).symm, rfl, by simpa using hr⟩
      · rintro ⟨a, c, b, heq, hn, hnr, hrc⟩
        cases a with
        | nil =>
          simp only [List.nil_append] at heq
          cases heq
          simp [hn]
        | cons a0 a' =>
          simp only [List.cons_append] at heq
          cases heq
          rw [noRet, hr] at hnr
          simp at hnr
    · rw [if_neg hr]
      simp only [Bool.not_eq_true] at hr
      constructor
      · intro h
        obtain ⟨m, hm, rfl⟩ := Option.map_eq_some'.mp h
        obtain ⟨a, c, b, heq, hn, hnr, hrc⟩ := (ih _ m).mp hm
        exact ⟨c0 :: a, c, b, by simp [heq], by simp [hn], by simp [noRet, hr, hnr],
          by simpa using hrc⟩
      · rintro ⟨a, c, b, heq, hn, hnr, hrc⟩
        cases a with
        | nil =>
          simp only [List.nil_append] at heq
          cases heq
          rw [List.foldl_nil] at hrc
          rw [hr] at hrc
          exact Bool.noConfusion hrc
        | cons a0 a' =>
          simp only [List.cons_append] at heq
          cases heq
          rw [noRet] at hnr
          simp only [Bool.and_eq_true, Bool.not_eq_true'] at hnr
          rw [Option.map_eq_some']
          refine ⟨a'.length + 1, (ih _ _).mpr ⟨a', c, b, rfl, rfl, hnr.2, by simpa using hrc⟩, by simp [hn]⟩

theorem noRet_iff (a : Str) : ∀ st, noRet st a = true ↔
    ∀ a1 c a2, a = a1 ++ c :: a2 → retCondB (a1.foldl jsonStep st) c = false := by
  induction a with
  | nil =>
    intro st
    simp only [noRet, true_iff]
    rintro a1 c a2 h
    exact absurd (List.append_eq_nil.mp h.symm).2 (List.cons_ne_nil c a2)
  | cons c0 rest ih =>
    intro st
    rw [noRet]
    simp only [Bool.and_eq_true, Bool.not_eq_true', ih]
    constructor
    · rintro ⟨h0, h⟩ a1 c a2 heq
      cases a1 with
      | nil =>
        simp only [List.nil_append] at heq
        cases heq
        simpa using h0
      | cons b0 a1' =>
        simp only [List.cons_append] at heq
        cases heq
        simpa using h a1' c a2 rfl
    · intro h
      refine ⟨by simpa using h [] c0 rest rfl, fun a1 c a2 heq => ?_⟩
      have := h (c0 :: a1) c a2 (by simp [heq])
      simpa using this

theorem jsonStep_depth_cases (st : Int × Bool × Bool) (c : Char) :
    (jsonStep st c).1 = st.1 ∨ (jsonStep st c).1 = st.1 + 1 ∨
      (jsonStep st c).1 = st.1 - 1 := by
  obtain ⟨d, is, esc⟩ := st
  cases is <;> cases esc <;>
    by_cases hb : c = '\\' <;> by_cases hq : c = '"' <;>
    by_cases ho : c = '\x7b' <;> by_cases hc : c = '\x7d' <;>
    simp_all [jsonStep]

theorem jsonStep_ge (st : Int × Bool × Bool) (c : Char)
    (hr : retCondB st c = false) (h1 : 1 ≤ st.1) : 1 ≤ (jsonStep st c).1 := by
  obtain ⟨d, is, esc⟩ := st
  cases is <;> cases esc <;>
    by_cases hb : c = '\\' <;> by_cases hq : c = '"' <;>
    by_cases ho : c = '\x7b' <;> by_cases hc : c = '\x7d' <;>
    simp_all [jsonStep, retCondB] <;> omega

theorem depthGE (a : Str) : ∀ st, noRet st a = true → 1 ≤ st.1 →
    ∀ k, k ≤ a.length → 1 ≤ ((a.take k).foldl jsonStep st).1 := by
  induction a with
  | nil =>
    intro st _ h1 k hk
    simp at hk
    simp [hk, h1]
  | cons c rest ih =>
    intro st hnr h1 k hk
    rw [noRet] at hnr
    simp only [Bool.and_eq_true, Bool.not_eq_true'] at hnr
    cases k with
    | zero => simpa using h1
    | succ k' =>
      rw [List.take_succ_cons, List.foldl_cons]
      exact ih (jsonStep st c) hnr.2 (jsonStep_ge st c hnr.1 h1) k' (by simpa using hk)

theorem depthGE2 (a : Str) : ∀ st, 1 ≤ st.1 →
    (∀ k, 0 < k → k ≤ a.length → ((a.take k).foldl jsonStep st).1 ≠ 0) →
    ∀ k, k ≤ a.length → 1 ≤ ((a.take k).foldl jsonStep st).1 := by
  induction a with
  | nil =>
    intro st h1 _ k hk
    simp at hk
    simp [hk, h1]
  | cons c rest ih =>
    intro st h1 hnz k hk
    cases k with
    | zero => simpa using h1
    | succ k' =>
      rw [List.take_succ_cons, List.foldl_cons]
      have hstep : 1 ≤ (jsonStep st c).1 := by
        have h0 := hnz (0 + 1) (by omega) (by simp)
        rw [List.take_succ_cons, List.foldl_cons, List.take_zero, List.foldl_nil] at h0
        rcases jsonStep_depth_cases st c with h | h | h <;> omega
      refine ih (jsonStep st c) hstep (fun m hm hml => ?_) k' (by simpa using hk)
      have := hnz (m + 1) (Nat.succ_pos m) (by simpa using hml)
      rw [List.take_succ_cons, List.foldl_cons] at this
      exact this

theorem isMinimalBalanced_iff (blob : Str) : isMinimalBalanced blob = true ↔
    blob.head? = some '\x7b' ∧ scanDepth blob = 0 ∧
      ∀ k, 0 < k → k < blob.length → scanDepth (blob.take k) ≠ 0 := by
  simp only [isMinimalBalanced, Bool.and_eq_true, List.all_eq_true, List.mem_range,
    decide_eq_true_eq, Bool.or_eq_true, Bool.not_eq_true', decide_eq_false_iff_not, and_assoc]
  constructor
  · rintro ⟨h1, h2, h3⟩
    exact ⟨h1, h2, fun k hk hkl => (h3 k hkl).resolve_left (Nat.pos_iff_ne_zero.mp hk)⟩
  · rintro ⟨h1, h2, h3⟩
    refine ⟨h1, h2, fun k hkl => ?_⟩
    rcases Nat.eq_zero_or_pos k with h | h
    · exact Or.inl h
    · exact Or.inr (h3 k h hkl)

theorem retCond_step (st : Int × Bool × Bool) (c : Char)
    (h : retCondB st c = true) : (jsonStep st c).1 = 0 := by
  obtain ⟨d, is, esc⟩ := st
  cases is <;> cases esc <;>
    by_cases hb : c = '\\' <;> by_cases hq : c = '"' <;>
    by_cases ho : c = '\x7b' <;> by_cases hc : c = '\x7d' <;>
    simp_all [jsonStep, retCondB]

theorem step_zero_retCond (st : Int × Bool × Bool) (c : Char) (h1 : 1 ≤ st.1)
    (h0 : (jsonStep st c).1 = 0) : retCondB st c = true := by
  obtain ⟨d, is, esc⟩ := st
  cases is <;> cases esc <;>
    by_cases hb : c = '\\' <;> by_cases hq : c = '"' <;>
    by_cases ho : c = '\x7b' <;> by_cases hc : c = '\x7d' <;>
    simp_all [jsonStep, retCondB] <;> omega

theorem scanDepth_concat (a : Str) (c : Char) :
    scanDepth (a ++ [c]) = (jsonStep (a.foldl jsonStep ⟨0, false, false⟩) c).1 := by
  rw [scanDepth, List.foldl_append]
  rfl

theorem take_append_singleton (a1 : Str) (c1 : Char) (a2 : Str) :
    (a1 ++ c1 :: a2).take (a1.length + 1) = a1 ++ [c1] := by
  induction a1 with
  | nil => simp
  | cons x xs ih => simpa using ih

theorem jsonStep_open : jsonStep (⟨0, false, false⟩ : Int × Bool × Bool) '\x7b' =
    ⟨1, false, false⟩ := by decide

theorem scanFrom_some_iff_minimal (l : Str) (hhead : l.head? = some '\x7b') (n : Nat) :
    scanFrom ⟨0, false, false⟩ l = some n ↔
      n ≤ l.length ∧ isMinimalBalanced (l.take n) = true := by
  constructor
  · intro h
    obtain ⟨a, c, b, heq, hn, hnr, hrc⟩ := (scanFrom_eq_some l _ n).mp h
    cases a with
    | nil =>
      rw [List.foldl_nil] at hrc
      simp [retCondB] at hrc
    | cons a0 a' =>
      have ha0 : a0 = '\x7b' := by
        rw [heq] at hhead
        simpa using hhead
      subst ha0
      have hlen : n ≤ l.length := by
        rw [heq, hn]
        simp
      refine ⟨hlen, ?_⟩
      have htake : l.take n = ('\x7b' :: a') ++ [c] := by
        rw [heq, hn]
        exact take_append_singleton _ c b
      rw [noRet] at hnr
      simp only [Bool.and_eq_true, Bool.not_eq_true'] at hnr
      have hnr' : noRet ⟨1, false, false⟩ a' = true := by
        have := hnr.2
        rwa [jsonStep_open] at this
      rw [isMinimalBalanced_iff]
      refine ⟨by rw [htake]; rfl, ?_, ?_⟩
      · rw [htake, scanDepth_concat]
        exact retCond_step _ c hrc
      · intro k hk hkl
        rw [htake] at hkl ⊢
        obtain ⟨k', rfl⟩ := Nat.exists_eq_add_of_lt hk
        rw [Nat.zero_add] at hkl ⊢
        have hk'len : k' ≤ a'.length := by
          simpa using Nat.lt_succ_iff.mp (by simpa [Nat.succ_eq_add_one] using hkl)
        rw [List.take_append_of_le_length (by simpa using Nat.succ_le_succ hk'len)]
        rw [List.take_succ_cons]
        have := depthGE a' ⟨1, false, false⟩ hnr' (by norm_num) k' hk'len
        rw [scanDepth, List.foldl_cons, jsonStep_open]
        omega
  · intro ⟨hnl, hmb⟩
    rw [isMinimalBalanced_iff] at hmb
    obtain ⟨h1, h2, h3⟩ := hmb
    have hblen : (l.take n).length = n := by
      rw [List.length_take]
      omega
    have hn1 : 1 ≤ n := by
      rcases Nat.eq_zero_or_pos n with h | h
      · subst h; simp at h1
      · exact h
    rcases List.eq_nil_or_concat (l.take n) with hnil | ⟨a, c, hac⟩
    · rw [hnil] at h1; simp at h1
    · rw [List.concat_eq_append] at hac
      cases a with
      | nil =>
        exfalso
        rw [hac] at h1 h2
        simp only [List.nil_append] at h1 h2
        have hc : c = '\x7b' := by simpa using h1
        subst hc
        rw [scanDepth, List.foldl_cons, List.foldl_nil, jsonStep_open] at h2
        exact absurd h2 (by decide)
      | cons a0 a' =>
        have ha0 : a0 = '\x7b' := by
          rw [hac] at h1
          simpa using h1
        subst ha0
        have hlsplit : l = ('\x7b' :: a') ++ c :: l.drop n := by
          conv_lhs => rw [← List.take_append_drop n l]
          rw [hac]
          simp
        have hlena : n = a'.length + 2 := by
          have hl2 := congrArg List.length hac
          rw [hblen] at hl2
          simp at hl2
          omega
        have hdepth : ∀ k ≤ a'.length,
            1 ≤ ((a'.take k).foldl jsonStep ⟨1, false, false⟩).1 := by
          refine depthGE2 a' ⟨1, false, false⟩ (by norm_num) (fun m hm hml => ?_)
          have hm1 : scanDepth ((l.take n).take (m + 1)) ≠ 0 := by
            refine h3 (m + 1) (Nat.succ_pos m) ?_
            rw [hblen]
            omega
          rw [hac] at hm1
          rw [List.take_append_of_le_length (by simpa using Nat.succ_le_succ hml),
            List.take_succ_cons, scanDepth, List.foldl_cons, jsonStep_open] at hm1
          exact hm1
        have hdA : 1 ≤ (a'.foldl jsonStep ⟨1, false, false⟩).1 := by
          have := hdepth a'.length le_rfl
          rwa [List.take_length] at this
        have hfold : ('\x7b' :: a').foldl jsonStep ⟨0, false, false⟩ =
            a'.foldl jsonStep ⟨1, false, false⟩ := by
          rw [List.foldl_cons, jsonStep_open]
        have hrc : retCondB (('\x7b' :: a').foldl jsonStep ⟨0, false, false⟩) c = true := by
          refine step_zero_retCond _ c (by rw [hfold]; exact hdA) ?_
          rw [← scanDepth_concat, ← hac]
          exact h2
        have hnr : noRet ⟨0, false, false⟩ ('\x7b' :: a') = true := by
          rw [noRet_iff]
          intro a1 c1 a2 hsplit
          by_contra hcon
          rw [Bool.not_eq_false] at hcon
          have hz : scanDepth (a1 ++ [c1]) = 0 := by
            rw [scanDepth_concat]
            exact retCond_step _ c1 hcon
          have htk : (l.take n).take (a1.length + 1) = a1 ++ [c1] := by
            rw [hac, hsplit]
            have : (a1 ++ c1 :: a2) ++ [c] = a1 ++ c1 :: (a2 ++ [c]) := by simp
            rw [this]
            exact take_append_singleton a1 c1 (a2 ++ [c])
          have hlt : a1.length + 1 < (l.take n).length := by
            have hl2 := congrArg List.length hsplit
            simp at hl2
            rw [hblen, hlena]
            omega
          have := h3 (a1.length + 1) (Nat.succ_pos _) hlt
          rw [htk] at this
          exact this hz
        have hres := (scanFrom_eq_some l ⟨0, false, false⟩ (('\x7b' :: a').length + 1)).mpr
          ⟨'\x7b' :: a', c, l.drop n, hlsplit, rfl, hnr, hrc⟩
        have hfin : ('\x7b' :: a').length + 1 = n := by
          simp only [List.length_cons]
          omega
        rwa [hfin] at hres

theorem findIdx_drop_head (c : Char) : ∀ (l : Str) (i j : Nat),
    List.findIdx? (· = c) l i = some j →
    ∃ k, j = i + k ∧ (l.drop k).head? = some c := by
  intro l
  induction l with
  | nil => intro i j h; simp [List.findIdx?] at h
  | cons x xs ih =>
    intro i j h
    rw [List.findIdx?_cons] at h
    by_cases hx : x = c
    · subst hx
      rw [if_pos (by simp)] at h
      have hij := Option.some.inj h
      exact ⟨0, by omega, by simp⟩
    · rw [if_neg (by simpa using hx)] at h
      obtain ⟨k, hk, hh⟩ := ih (i + 1) j h
      exact ⟨k + 1, by omega, by simpa using hh⟩

theorem findCharFrom_head (html : Str) (c : Char) (start fb : Nat)
    (h : findCharFrom html c start = some fb) : (html.drop fb).head? = some c := by
  rw [findCharFrom] at h
  obtain ⟨j, hj, rfl⟩ := Option.map_eq_some'.mp h
  obtain ⟨k, hk, hh⟩ := findIdx_drop_head c (html.drop start) 0 j hj
  rw [Nat.zero_add] at hk
  rw [hk, Nat.add_comm k start, ← List.drop_drop]
  exact hh

/-- C1: extractJsonAfterMarker returns null when the marker is absent, or when
no opening brace occurs at or after the marker, or when the scan (tracking the
in-string flag toggled by unescaped quotes, the backslash escape flag, and a
brace-depth counter updated only outside string literals) exhausts the input
before the depth returns to zero — and otherwise returns exactly the substring
from the first brace through the matching closing brace inclusive: the result
is `some blob` precisely when `blob` is the minimal balanced prefix of the
input starting at the first brace, including blobs whose string values contain
escaped quotes and literal brace characters. -/
theorem C1_extractJson_confirmed (html marker : Str) :
    (findSubstr html marker = none → extractJsonAfterMarker html marker = none) ∧
    ∀ start, findSubstr html marker = some start →
      ((findCharFrom html '\x7b' start = none →
          extractJsonAfterMarker html marker = none) ∧
        ∀ fb, findCharFrom html '\x7b' start = some fb →
          ((extractJsonAfterMarker html marker = none ↔
              ∀ n, n ≤ (html.drop fb).length →
                isMinimalBalanced ((html.drop fb).take n) = false) ∧
            ∀ blob, (extractJsonAfterMarker html marker = some blob ↔
              (∃ rest, html.drop fb = blob ++ rest) ∧
                isMinimalBalanced blob = true))) := by
  refine ⟨fun h => by rw [extractJsonAfterMarker, h], fun start hstart => ⟨?_, ?_⟩⟩
  · intro h
    rw [extractJsonAfterMarker, hstart]
    dsimp only
    rw [h]
  · intro fb hfb
    have hhead := findCharFrom_head html '\x7b' start fb hfb
    have hex : extractJsonAfterMarker html marker =
        (scanFrom ⟨0, false, false⟩ (html.drop fb)).map
          (fun len => (html.drop fb).take len) := by
      rw [extractJsonAfterMarker, hstart]
      dsimp only
      rw [hfb]
    constructor
    · rw [hex]
      constructor
      · intro hnone n hnlen
        rw [Option.map_eq_none'] at hnone
        by_contra hmin
        rw [Bool.not_eq_false] at hmin
        have := (scanFrom_some_iff_minimal _ hhead n).mpr ⟨hnlen, hmin⟩
        rw [this] at hnone
        exact Option.noConfusion hnone
      · intro hall
        rw [Option.map_eq_none']
        cases hscan : scanFrom ⟨0, false, false⟩ (html.drop fb) with
        | none => rfl
        | some n =>
          obtain ⟨hnlen, hmin⟩ := (scanFrom_some_iff_minimal _ hhead n).mp hscan
          rw [hall n hnlen] at hmin
          exact Bool.noConfusion hmin
    · intro blob
      rw [hex]
      constructor
      · intro hsome
        obtain ⟨m, hm, hblob⟩ := Option.map_eq_some'.mp hsome
        obtain ⟨hmlen, hmin⟩ := (scanFrom_some_iff_minimal _ hhead m).mp hm
        refine ⟨⟨(html.drop fb).drop m, ?_⟩, ?_⟩
        · rw [← hblob]
          exact (List.take_append_drop m _).symm
        · rw [← hblob]
          exact hmin
      · rintro ⟨⟨rest, hrest⟩, hmin⟩
        have hlen : blob.length ≤ (html.drop fb).length := by
          rw [hrest]
          simp
        have htk : (html.drop fb).take blob.length = blob := by
          rw [hrest, List.take_left]
        have hres := (scanFrom_some_iff_minimal _ hhead blob.length).mpr
          ⟨hlen, by rw [htk]; exact hmin⟩
        rw [hres]
        simp [htk]

/-- Witness: on a concrete page whose JSON blob contains an escaped quote and
literal braces inside a string value, the extractor returns exactly the blob. -/
theorem C1_extractJson_confirmed_witness :
    extractJsonAfterMarker c1Html c1Marker = some c1Blob :=
  ((((C1_extractJson_confirmed c1Html c1Marker).2 4 (by decide)).2 8 (by decide)).2
      c1Blob).mpr ⟨⟨c1Rest, by decide⟩, by decide⟩
